import Mathlib

/-!
# Verification of the Borsdata API client (`borsdata/borsdata_api.py`)

A shallow embedding of the request/response pipeline of the `BorsdataAPI`
class: rate-limited request dispatch (`_call_api`), parameter building
(`_get_params`, `_get_base_params`), index handling (`_set_index`,
`_parse_date`), and the JSON-to-table reshaping done by the endpoint
operations.  Python dicts are embedded as ordered association lists,
`pandas` data frames as explicit tables of rows of labelled cells, and
wall-clock time as rational-valued clocks.
-/

/-! ## Parameter values and Python-dict embedding -/

/-- A query-parameter value: the source stores strings (auth key, dates,
joined id lists), ints (the max-count limits) and, transiently, lists of
instrument ids. -/
inductive PValue where
  | str (s : String)
  | int (n : Int)
  | intList (l : List Int)
deriving DecidableEq

/-- A Python dict of URL parameters, embedded as an ordered association
list (Python dicts preserve insertion order; keys are unique). -/
abbrev Params := List (String × PValue)

/-- `d[k]` read access (`None` when the key is absent). -/
def lookupP (ps : Params) (k : String) : Option PValue :=
  (ps.find? (fun kv => kv.1 = k)).map (fun kv => kv.2)

/-- `d[k] = v` on a Python dict: overwrite the existing entry in place,
or append a new entry at the end. -/
def setKey : Params → String → PValue → Params
  | [], k, v => [(k, v)]
  | kv :: rest, k, v =>
    if kv.1 = k then (k, v) :: rest else kv :: setKey rest k v

/-- Python `",".join(str(stock_id) for stock_id in value)` from
`_get_params`.  Every call site binds `instList` to a list of ints;
iterating a string would yield its characters, and an int is not
iterable (that case never occurs and is given a harmless value here). -/
def joinInstList : PValue → String
  | .intList l => String.intercalate "," (l.map (fun n => toString n))
  | .str s => String.intercalate "," (s.toList.map (fun c => String.singleton c))
  | .int n => toString n

/-- The loop body of `_get_params` (source lines 45-58): start from a copy
of `self._params`, process the keyword arguments in order, and collect the
`"Unknown param"` diagnostics that the source prints.  A `none` value is
skipped (`if value is not None`). -/
def getParamsAux : Params → List (String × PValue) →
    List (String × Option PValue) → Params × List (String × PValue)
  | ps, ds, [] => (ps, ds)
  | ps, ds, (_, none) :: rest => getParamsAux ps ds rest
  | ps, ds, (k, some v) :: rest =>
    if k = "from_date" then getParamsAux (setKey ps "from" v) ds rest
    else if k = "to" ∨ k = "date" then getParamsAux (setKey ps k v) ds rest
    else if k = "instList" then
      getParamsAux (setKey ps "instList" (.str (joinInstList v))) ds rest
    else getParamsAux ps (ds ++ [(k, v)]) rest

/-- `_get_params(**kwargs)`: the final parameter dict together with the
list of `"Unknown param"` diagnostics emitted while building it. -/
def getParams (base : Params) (kwargs : List (String × Option PValue)) :
    Params × List (String × PValue) :=
  getParamsAux base [] kwargs

/-- `self._params` as set up in `BorsdataAPI.__init__` (source lines 19-24). -/
def init_params (apiKey : String) : Params :=
  [("authKey", .str apiKey), ("maxYearCount", .int 20),
   ("maxR12QCount", .int 40), ("maxCount", .int 20)]

/-- `_get_base_params` (source lines 89-100): a fresh dict, independent of
the session's `self._params`. -/
def get_base_params (apiKey : String) : Params :=
  [("authKey", .str apiKey), ("version", .int 1), ("maxYearCount", .int 20),
   ("maxR12QCount", .int 40), ("maxCount", .int 20)]

/-! ## Outbound requests -/

/-- One outbound HTTP GET: the URL fragment appended to the URL root and
the query parameters passed to `requests.get`. -/
structure Request where
  url : String
  params : Params
deriving DecidableEq

/-- The keyword arguments `instList=ins_ids` as received by `_call_api`. -/
def instListKw (ids : List Int) : List (String × Option PValue) :=
  [("instList", some (.intList ids))]

/-- The HTTP GETs issued by `get_instrument_descriptions` (source lines
192-211): the length guard `if len(ins_ids) > 50: return None` runs before
any call, so an oversized list produces no request at all. -/
def get_instrument_descriptions_requests (base : Params) (ins_ids : List Int) :
    List Request :=
  if ins_ids.length > 50 then []
  else [⟨"instruments/description", (getParams base (instListKw ins_ids)).1⟩]

/-- The value `get_instrument_descriptions` returns when the guard fires:
`None` (modelled as `none`); otherwise a data frame is produced (modelled
abstractly here, the reshaping itself is not at issue in the guard claim). -/
def get_instrument_descriptions_guard (ins_ids : List Int) : Option Unit :=
  if ins_ids.length > 50 then none else some ()

/-- The HTTP GETs issued by `get_report_calendar` (source lines 427-437):
the body has no length guard, the request is issued unconditionally. -/
def get_report_calendar_requests (base : Params) (ins_ids : List Int) :
    List Request :=
  [⟨"instruments/report/calendar", (getParams base (instListKw ins_ids)).1⟩]

/-! ## Session-parameter mutation by `max_count` (source lines 250-252, 336-339) -/

/-- Effect of `get_kpi_summary(ins_id, report_type, max_count)` on the
session's `self._params`: `if max_count is not None:
self._params["maxCount"] = max_count` (source lines 251-252). -/
def get_kpi_summary_params_after (ps : Params) (max_count : Option Int) : Params :=
  match max_count with
  | none => ps
  | some m => setKey ps "maxCount" (.int m)

/-- Effect of `get_instrument_report` on the session's `self._params`
(source lines 338-339), identical to `get_kpi_summary`. -/
def get_instrument_report_params_after (ps : Params) (max_count : Option Int) :
    Params :=
  match max_count with
  | none => ps
  | some m => setKey ps "maxCount" (.int m)

/-! ## `get_kpi_history` (source lines 217-240) -/

/-- The local `params` dict that `get_kpi_history` builds from
`_get_base_params()` and its `max_count` argument (source lines 231-233).
The source never passes this dict anywhere. -/
def get_kpi_history_local_params (apiKey : String) (max_count : Option Int) :
    Params :=
  match max_count with
  | none => get_base_params apiKey
  | some m => setKey (get_base_params apiKey) "maxCount" (.int m)

/-- The one HTTP GET issued by `get_kpi_history`: the source calls
`self._call_api(url)` with no keyword arguments (source line 235), so the
outgoing query parameters are exactly `_get_params()` over the session
parameters — the locally built `params` dict is ignored. -/
def get_kpi_history_request (sessionParams : Params) (ins_id kpi_id : Int)
    (report_type price_type : String) (max_count : Option Int) : Request :=
  ⟨s!"instruments/{ins_id}/kpis/{kpi_id}/{report_type}/{price_type}/history",
   (getParams sessionParams []).1⟩

/-! ## Data frames

A `pandas` data frame is embedded as a table whose rows are ordered lists
of labelled cells.  `indexCols` names the columns that `set_index` has
moved into the index (`[]` is the default range index); an index cell
stays inside the row, labelled by its column name, mirroring how a pandas
index keeps its values addressable. -/

/-- One cell of a data frame.  `.d` is a date value produced by
`pd.to_datetime` from a string (ISO date strings compare the same way as
the dates they denote, so the string is kept). -/
inductive Cell where
  | s (v : String)
  | n (v : Rat)
  | d (v : String)
  | null
deriving DecidableEq

/-- One row: column label to cell, in column order. -/
abbrev Row := List (String × Cell)

structure DataFrame where
  columns : List String
  indexCols : List String
  rows : List Row
deriving DecidableEq

/-- The distinct elements of a list, first occurrence first — the column
order `pd.json_normalize` derives from a list of JSON records. -/
def firstSeen {α : Type} [DecidableEq α] : List α → List α
  | [] => []
  | a :: rest => a :: (firstSeen rest).filter (fun x => x ≠ a)

/-- Read one field of a record; a missing field is `NaN` (`.null`). -/
def lookupRow (r : Row) (c : String) : Cell :=
  ((r.find? (fun kv => kv.1 = c)).map (fun kv => kv.2)).getD .null

/-- `pd.json_normalize(records)`: columns in first-seen key order, each
row rectangularised against them (missing fields become `NaN`). -/
def json_normalize (recs : List Row) : DataFrame :=
  { columns := firstSeen (recs.flatMap (fun r => r.map Prod.fst)),
    indexCols := [],
    rows := recs.map (fun r =>
      (firstSeen (recs.flatMap (fun rr => rr.map Prod.fst))).map
        (fun c => (c, lookupRow r c))) }

/-- Apply a `df.rename(columns={...})` mapping to one label. -/
def renameKey (m : List (String × String)) (k : String) : String :=
  ((m.find? (fun kv => kv.1 = k)).map (fun kv => kv.2)).getD k

/-- `df.rename(columns={...})`: relabel columns (and the labels inside
each row); cells are untouched. -/
def renameDF (m : List (String × String)) (df : DataFrame) : DataFrame :=
  { columns := df.columns.map (renameKey m),
    indexCols := df.indexCols,
    rows := df.rows.map (fun r => r.map (fun kv => (renameKey m kv.1, kv.2))) }

/-- `pd.to_datetime` on one cell: every call site feeds date strings; a
non-string cell is left as it is. -/
def coerceDate : Cell → Cell
  | .s v => .d v
  | c => c

/-- `_parse_date(df, key)` (source lines 79-87): coerce column `key` to
dates if the column exists, otherwise do nothing. -/
def parseDate (df : DataFrame) (key : String) : DataFrame :=
  if key ∈ df.columns then
    { df with rows := df.rows.map (fun r => r.map
        (fun kv => if kv.1 = key then (kv.1, coerceDate kv.2) else kv)) }
  else df

/-! ### Ordering of cells and rows (for `sort_index`) -/

/-- Three-way comparison from a linear order. -/
def cmpLin {α : Type} [LinearOrder α] (a b : α) : Ordering :=
  if a < b then .lt else if b < a then .gt else .eq

/-- Rank used to compare cells of different kinds (pandas would refuse;
the sort keys of every endpoint are homogeneous, so any total choice
works). -/
def rankCell : Cell → Nat
  | .null => 0
  | .n _ => 1
  | .s _ => 2
  | .d _ => 3

/-- Total three-way comparison of cells. -/
def cmpCell : Cell → Cell → Ordering
  | .n x, .n y => cmpLin x y
  | .s x, .s y => cmpLin x y
  | .d x, .d y => cmpLin x y
  | .null, .null => .eq
  | a, b => cmpLin (rankCell a) (rankCell b)

/-- Lexicographic comparison of key tuples. -/
def cmpCells : List Cell → List Cell → Ordering
  | [], [] => .eq
  | [], _ :: _ => .lt
  | _ :: _, [] => .gt
  | a :: as, b :: bs =>
    match cmpCell a b with
    | .eq => cmpCells as bs
    | o => o

/-- The sort key of a row for index columns `ks`. -/
def keyCells (ks : List String) (r : Row) : List Cell :=
  ks.map (fun k => lookupRow r k)

/-- Row order used by `df.sort_index(ascending=...)`. -/
def rowLeBy (ks : List String) (ascending : Bool) (r₁ r₂ : Row) : Bool :=
  match (if ascending then cmpCells (keyCells ks r₁) (keyCells ks r₂)
         else cmpCells (keyCells ks r₂) (keyCells ks r₁)) with
  | .gt => false
  | _ => true

/-- Insert into a sorted list (the helper of the sort model). -/
def insertSorted {α : Type} (le : α → α → Bool) (a : α) : List α → List α
  | [] => [a]
  | b :: bs => if le a b then a :: b :: bs else b :: insertSorted le a bs

/-- Sorting model for `sort_index` (any correct comparison sort; the
claims depend only on the ordering of the result). -/
def isort {α : Type} (le : α → α → Bool) : List α → List α
  | [] => []
  | a :: as => insertSorted le a (isort le as)

/-- The index argument of `_set_index`: a single column name or a list of
names (`type(index) == list` in the source). -/
inductive IndexSpec where
  | one (k : String)
  | many (ks : List String)
deriving DecidableEq

/-- `df.set_index(ks); df.sort_index(ascending=...)`: the named columns
leave `columns`, become the index, and the rows are sorted by them. -/
def setIndexApply (df : DataFrame) (ks : List String) (ascending : Bool) :
    DataFrame :=
  { columns := df.columns.filter (fun c => c ∉ ks),
    indexCols := ks,
    rows := isort (rowLeBy ks ascending) df.rows }

/-- `_set_index` (source lines 60-77): every declared index column must
already be a column of the frame; if any is missing the frame is returned
untouched (the early `return`), otherwise the index is set and sorted. -/
def setIndex (df : DataFrame) (spec : IndexSpec) (ascending : Bool) : DataFrame :=
  match spec with
  | .one k => if k ∈ df.columns then setIndexApply df [k] ascending else df
  | .many ks =>
    if ks.all (fun k => decide (k ∈ df.columns)) then setIndexApply df ks ascending
    else df

/-- `df.fillna(0)`: every `NaN` cell becomes the number `0`. -/
def fillna0 (df : DataFrame) : DataFrame :=
  { df with rows := df.rows.map (fun r => r.map
      (fun kv => if kv.2 = .null then (kv.1, Cell.n 0) else kv)) }

/-- Python `x.replace("_", "")` on the report-property strings: drop every
underscore. -/
def stripUnderscores (s : String) : String :=
  String.mk (s.toList.filter (fun c => c ≠ '_'))

/-- `df[key] = df[key].apply(lambda x: x.replace("_", ""))` over a string
column (source line 423; the payload column holds strings). -/
def stripColUnderscores (df : DataFrame) (key : String) : DataFrame :=
  { df with rows := df.rows.map (fun r => r.map
      (fun kv => if kv.1 = key then
        (kv.1, match kv.2 with
               | .s v => .s (stripUnderscores v)
               | c => c)
        else kv)) }

/-! ## Endpoint operations over data frames -/

/-- `get_instrument_stock_prices` reshaping (source lines 443-470): rename
`{d,c,h,l,o,v}`, coerce `date`, index by `date` descending.  The input is
the already-unwrapped `stockPricesList` array. -/
def get_instrument_stock_prices_df (recs : List Row) : DataFrame :=
  setIndex
    (parseDate
      (renameDF [("d", "date"), ("c", "close"), ("h", "high"), ("l", "low"),
                 ("o", "open"), ("v", "volume")] (json_normalize recs))
      "date")
    (.one "date") false

/-- `pd.json_normalize(json_data["stockPricesArrayList"], "stockPricesList",
["instrument"])`: flatten each instrument's price rows and append the
parent id as a final `instrument` column. -/
def json_normalize_prices_meta (arr : List (Int × List Row)) : DataFrame :=
  json_normalize (arr.flatMap (fun g =>
    g.2.map (fun r => r ++ [("instrument", Cell.n (g.1 : Rat))])))

/-- `get_instrument_stock_prices_list` reshaping (source lines 472-502):
rename (including `instrument` to `stock_id`), `fillna(0)`, and return —
no date coercion and no index is applied. -/
def get_instrument_stock_prices_list_df (arr : List (Int × List Row)) :
    DataFrame :=
  fillna0
    (renameDF [("d", "date"), ("c", "close"), ("h", "high"), ("l", "low"),
               ("o", "open"), ("v", "volume"), ("instrument", "stock_id")]
      (json_normalize_prices_meta arr))

/-- `get_instruments_stock_prices_last` reshaping (source lines 504-526):
rename `{d,i,c,h,l,o,v}`, coerce `date`, index by `date` descending. -/
def get_instruments_stock_prices_last_df (recs : List Row) : DataFrame :=
  setIndex
    (parseDate
      (renameDF [("d", "date"), ("i", "insId"), ("c", "close"), ("h", "high"),
                 ("l", "low"), ("o", "open"), ("v", "volume")]
        (json_normalize recs))
      "date")
    (.one "date") false

/-- `get_stock_prices_date` reshaping (source lines 528-552): same rename
and date coercion, but the index is set to `insId` (ascending, the
`_set_index` default). -/
def get_stock_prices_date_df (recs : List Row) : DataFrame :=
  setIndex
    (parseDate
      (renameDF [("d", "date"), ("i", "insId"), ("c", "close"), ("h", "high"),
                 ("l", "low"), ("o", "open"), ("v", "volume")]
        (json_normalize recs))
      "date")
    (.one "insId") true

/-- `get_kpi_metadata` reshaping (source lines 311-320): normalize the
`kpiHistoryMetadatas` array and index by `kpiId` — no textual cleanup of
any kind is applied. -/
def get_kpi_metadata_df (recs : List Row) : DataFrame :=
  setIndex (json_normalize recs) (.one "kpiId") true

/-- `get_reports_metadata` reshaping (source lines 410-425): rename the
misspelt `reportPropery` column to `reportProperty`, strip underscores
from that column's values, and index by `reportProperty`. -/
def get_reports_metadata_df (recs : List Row) : DataFrame :=
  setIndex
    (stripColUnderscores
      (renameDF [("reportPropery", "reportProperty")] (json_normalize recs))
      "reportProperty")
    (.one "reportProperty") true

/-! ## Transport results (`_call_api`, source lines 26-43) -/

/-- One HTTP response as the transport hands it back: status code, body
text, and the JSON payload that `response.json()` would produce (a
top-level object from envelope key to record array, which is the shape of
every Borsdata payload). -/
structure HttpResp where
  status : Int
  body : String
  payload : List (String × List Row)
deriving DecidableEq

/-- What `_call_api` returns (source lines 40-43): the decoded JSON on
status 200, otherwise the raw `Response` object itself — no retry, no
exception. -/
inductive ApiResult where
  | json (p : List (String × List Row))
  | response (r : HttpResp)
deriving DecidableEq

def callApi (r : HttpResp) : ApiResult :=
  if r.status ≠ 200 then .response r else .json r.payload

/-- A Python exception surfaced by an endpoint operation. -/
inductive PyExn where
  | typeError (msg : String)
  | keyError (k : String)
deriving DecidableEq

/-- Return value or raised exception. -/
inductive PyResult (α : Type) where
  | ok (a : α)
  | exn (e : PyExn)
deriving DecidableEq

/-- `json_data[key]` on what `_call_api` returned: subscripting a
`requests.Response` raises `TypeError`; a missing envelope key raises
`KeyError`. -/
def pySubscript (res : ApiResult) (key : String) : PyResult (List Row) :=
  match res with
  | .response _ => .exn (.typeError "Response object is not subscriptable")
  | .json obj =>
    match obj.find? (fun kv => kv.1 = key) with
    | some kv => .ok kv.2
    | none => .exn (.keyError key)

/-- `get_branches` (source lines 106-115) as a function of the transport's
response: unwrap `json_data["branches"]`, normalize, index by `id`. -/
def get_branches_run (r : HttpResp) : PyResult DataFrame :=
  match pySubscript (callApi r) "branches" with
  | .exn e => .exn e
  | .ok recs => .ok (setIndex (json_normalize recs) (.one "id") true)

/-! ## Throttling (`_call_api`, source lines 33-39; `__init__` lines 17-18)

Wall-clock time is a rational-valued clock that only the modelled
operations advance: `time.sleep(x)` advances it by exactly `x`,
`requests.get` by the duration of the round trip, and the caller's own
work between calls by a nonnegative amount.  `calls_per_second` is the
fixed `10` from `__init__`. -/

structure ThrottleState where
  clock : Rat
  lastApiCall : Rat
deriving DecidableEq

/-- One `_call_api` as a timing event.  `preWork` is the caller's time
spent since the previous call returned; `reqDur` is the duration of the
HTTP round trip.  The result is the instant the outbound request begins,
together with the state after line 39 (`self._last_api_call =
time.time()`). -/
def callStep (st : ThrottleState) (preWork reqDur : Rat) : Rat × ThrottleState :=
  let t := st.clock + preWork
  let start := if t - st.lastApiCall < 1 / 10
               then t + (1 / 10 - (t - st.lastApiCall)) else t
  (start, ⟨start + reqDur, start + reqDur⟩)

/-- A sequence of consecutive calls on one session: the list of request
start instants and the final session state. -/
def runCalls (st : ThrottleState) : List (Rat × Rat) → List Rat × ThrottleState
  | [] => ([], st)
  | step :: rest =>
    let r := callStep st step.1 step.2
    ((r.1 :: (runCalls r.2 rest).1), (runCalls r.2 rest).2)

/-! ## `get_kpi_summary` pivot (source lines 242-263) -/

/-- One entry of a per-KPI `values` array: `{"y": year, "p": period,
"v": value}`. -/
structure YPV where
  y : Int
  p : Int
  v : Rat
deriving DecidableEq

/-- One element of the `kpis` array: `{"KpiId": ..., "values": [...]}`. -/
structure KpiGroup where
  kpiId : Int
  values : List YPV
deriving DecidableEq

/-- One flattened-and-renamed row of
`pd.json_normalize(json_data["kpis"], record_path="values", meta="KpiId")`
after the rename to `year`/`period`/`kpiValue`/`kpiId`. -/
structure KpiEntry where
  year : Int
  period : Int
  kpiId : Int
  v : Rat
deriving DecidableEq

def kpiSummaryEntries (groups : List KpiGroup) : List KpiEntry :=
  groups.flatMap (fun g => g.values.map (fun t => ⟨t.y, t.p, g.kpiId, t.v⟩))

/-- The result of `df.pivot_table(index=["year","period"], columns="kpiId",
values="kpiValue")`: the row labels are the distinct `(year, period)`
pairs, the column labels are the distinct integer KPI ids — integers, not
strings, which is what makes the subsequent `_set_index` a no-op. -/
structure PivotDF where
  cols : List Int
  idx : List (Int × Int)
  rows : List (List (Option Rat))
deriving DecidableEq

/-- Boolean orders used by `pivot_table`'s default ascending sort. -/
def intLeB (a b : Int) : Bool := decide (a ≤ b)

def pairLeB (a b : Int × Int) : Bool :=
  decide (a.1 < b.1 ∨ (a.1 = b.1 ∧ a.2 ≤ b.2))

/-- `pivot_table` with the default `aggfunc="mean"`, `sort=True`,
`dropna` semantics on cells with no contributing entry (`NaN`,
modelled as `none`). -/
def pivotKpiSummary (entries : List KpiEntry) : PivotDF :=
  { cols := isort intLeB (firstSeen (entries.map (fun e => e.kpiId))),
    idx := isort pairLeB (firstSeen (entries.map (fun e => (e.year, e.period)))),
    rows := (isort pairLeB (firstSeen (entries.map (fun e => (e.year, e.period))))).map
      (fun k => (isort intLeB (firstSeen (entries.map (fun e => e.kpiId)))).map
        (fun c =>
          match (entries.filter (fun e =>
              e.year = k.1 ∧ e.period = k.2 ∧ e.kpiId = c)).map (fun e => e.v) with
          | [] => none
          | vs => some (vs.sum / (vs.length : Rat)))) }

/-- Python `==` between a `str` index name and an `int` column label is
always `False`; this is the comparison `_set_index` performs when the
frame's columns are the integer KPI ids. -/
def pyStrIntEq (_ : String) (_ : Int) : Bool := false

/-- `_set_index(df, ["year", "period"], ascending=False)` applied to the
pivoted frame (source line 262): each declared name is looked up among
the integer column labels, the membership test `idx in df.columns.array`
compares a string against ints and never succeeds, so the early `return`
fires and the frame is left exactly as `pivot_table` produced it.  (The
branch that would apply the descending sort is kept for fidelity with
`_set_index`'s shape; it is unreachable for a nonempty name list.) -/
def setIndexPivot (df : PivotDF) (index : List String) : PivotDF :=
  if index.all (fun k => df.cols.any (fun c => pyStrIntEq k c)) then
    { df with
      idx := (isort (fun a b => pairLeB b.1 a.1) (df.idx.zip df.rows)).map
        (fun z => z.1),
      rows := (isort (fun a b => pairLeB b.1 a.1) (df.idx.zip df.rows)).map
        (fun z => z.2) }
  else df

/-- `get_kpi_summary` reshaping (source lines 242-263), from the decoded
`kpis` array to the returned frame. -/
def get_kpi_summary_df (groups : List KpiGroup) : PivotDF :=
  setIndexPivot (pivotKpiSummary (kpiSummaryEntries groups)) ["year", "period"]

/-! ## Payload record shapes (for stating universally quantified claims)

Concrete record shapes of the JSON payloads, used to quantify over
well-formed payloads without carrying shape hypotheses: a stock-price
record always carries exactly the keys `d,c,h,l,o,v` (plus `i` in the
all-instrument endpoints), a report-metadata record carries its
`reportPropery` string. -/

/-- A `stockPricesList` record: `{"d": iso-date, "c","h","l","o","v"}`. -/
structure SpRec where
  d : String
  c : Rat
  h : Rat
  l : Rat
  o : Rat
  v : Rat
deriving DecidableEq

def spRow (r : SpRec) : Row :=
  [("d", .s r.d), ("c", .n r.c), ("h", .n r.h), ("l", .n r.l),
   ("o", .n r.o), ("v", .n r.v)]

/-- A record of the all-instrument price endpoints, with the extra
instrument id under `"i"`. -/
structure SpRec7 where
  d : String
  i : Rat
  c : Rat
  h : Rat
  l : Rat
  o : Rat
  v : Rat
deriving DecidableEq

def spRow7 (r : SpRec7) : Row :=
  [("d", .s r.d), ("i", .n r.i), ("c", .n r.c), ("h", .n r.h), ("l", .n r.l),
   ("o", .n r.o), ("v", .n r.v)]

/-- A `reportMetadatas` record (the fields relevant to the cleanup). -/
structure RmRec where
  reportPropery : String
  nameEn : String
deriving DecidableEq

def rmRow (r : RmRec) : Row :=
  [("reportPropery", .s r.reportPropery), ("nameEn", .s r.nameEn)]

/-! ## Helper and statement-level definitions -/

/-- The parameter-dict key that one keyword argument of `_get_params`
writes, if any: `from_date` writes `from`, `to` and `date` write
themselves, `instList` writes itself, and every other key writes
nothing (it is only diagnosed). -/
def targetKey (k : String) : Option String :=
  if k = "from_date" then some "from"
  else if k = "to" ∨ k = "date" then some k
  else if k = "instList" then some "instList"
  else none

/-- Amended C1, as one proposition over an arbitrary base dict and
keyword-argument list: `from_date` is emitted as `from` and never as
`from_date`; `to` and `date` (not `to_date`) are used verbatim; an
`instList` list is comma-joined in order; every other key with a
non-`None` value is diagnosed and excluded; parameters nobody writes are
unchanged. -/
def C1Concl (base : Params) (kwargs : List (String × Option PValue)) : Prop :=
  lookupP (getParams base kwargs).1 "from_date" = none
  ∧ (∀ v, ("from_date", some v) ∈ kwargs →
      lookupP (getParams base kwargs).1 "from" = some v)
  ∧ (∀ v, ("to", some v) ∈ kwargs →
      lookupP (getParams base kwargs).1 "to" = some v)
  ∧ (∀ v, ("date", some v) ∈ kwargs →
      lookupP (getParams base kwargs).1 "date" = some v)
  ∧ (∀ l, ("instList", some (.intList l)) ∈ kwargs →
      lookupP (getParams base kwargs).1 "instList"
        = some (.str (String.intercalate "," (l.map (fun n => toString n)))))
  ∧ (∀ k v, (k, some v) ∈ kwargs →
      k ∉ (["from_date", "to", "date", "instList"] : List String) →
      (k, v) ∈ (getParams base kwargs).2
      ∧ (k ≠ "from" → lookupP (getParams base kwargs).1 k = lookupP base k))
  ∧ (∀ k v, (k, v) ∈ (getParams base kwargs).2 →
      (k, some v) ∈ kwargs
      ∧ k ∉ (["from_date", "to", "date", "instList"] : List String))
  ∧ (∀ k, k ∉ kwargs.map Prod.fst → k ≠ "from" →
      lookupP (getParams base kwargs).1 k = lookupP base k)

/-- The row `get_instrument_stock_prices` should deliver for one payload
record: renamed labels, coerced date. -/
def spOutRow (x : SpRec) : Row :=
  [("date", Cell.d x.d), ("close", Cell.n x.c), ("high", Cell.n x.h),
   ("low", Cell.n x.l), ("open", Cell.n x.o), ("volume", Cell.n x.v)]

/-- The same record as the list endpoint leaves it: renamed, but the date
kept as the raw string (no coercion), plus the originating instrument. -/
def spListOutRow (insId : Int) (x : SpRec) : Row :=
  [("date", Cell.s x.d), ("close", Cell.n x.c), ("high", Cell.n x.h),
   ("low", Cell.n x.l), ("open", Cell.n x.o), ("volume", Cell.n x.v),
   ("stock_id", Cell.n (insId : Rat))]

/-- A seven-key record after rename and date coercion. -/
def spOutRow7 (x : SpRec7) : Row :=
  [("date", Cell.d x.d), ("insId", Cell.n x.i), ("close", Cell.n x.c),
   ("high", Cell.n x.h), ("low", Cell.n x.l), ("open", Cell.n x.o),
   ("volume", Cell.n x.v)]

/-- Amended C5, single-instrument endpoint: rename applied, date coerced,
indexed by `date`, rows sorted descending by date. -/
def C5Single (recs : List SpRec) : Prop :=
  (get_instrument_stock_prices_df (recs.map spRow)).columns
    = ["close", "high", "low", "open", "volume"]
  ∧ (get_instrument_stock_prices_df (recs.map spRow)).indexCols = ["date"]
  ∧ (get_instrument_stock_prices_df (recs.map spRow)).rows.Perm
      (recs.map spOutRow)
  ∧ List.Chain' (fun r₁ r₂ => rowLeBy ["date"] false r₁ r₂ = true)
      (get_instrument_stock_prices_df (recs.map spRow)).rows

/-- Amended C5, multi-instrument list endpoint: rename applied, but the
result is un-indexed, unsorted (payload order kept) and the date column
is left as raw strings. -/
def C5ListOp (arr : List (Int × List SpRec)) : Prop :=
  (get_instrument_stock_prices_list_df (arr.map (fun g => (g.1, g.2.map spRow)))).columns
    = ["date", "close", "high", "low", "open", "volume", "stock_id"]
  ∧ (get_instrument_stock_prices_list_df (arr.map (fun g => (g.1, g.2.map spRow)))).indexCols
    = []
  ∧ (get_instrument_stock_prices_list_df (arr.map (fun g => (g.1, g.2.map spRow)))).rows
    = arr.flatMap (fun g => g.2.map (spListOutRow g.1))

/-- Amended C5, last-prices endpoint: like the single-instrument one,
with the extra `insId` column. -/
def C5Last (recs : List SpRec7) : Prop :=
  (get_instruments_stock_prices_last_df (recs.map spRow7)).columns
    = ["insId", "close", "high", "low", "open", "volume"]
  ∧ (get_instruments_stock_prices_last_df (recs.map spRow7)).indexCols = ["date"]
  ∧ (get_instruments_stock_prices_last_df (recs.map spRow7)).rows.Perm
      (recs.map spOutRow7)
  ∧ List.Chain' (fun r₁ r₂ => rowLeBy ["date"] false r₁ r₂ = true)
      (get_instruments_stock_prices_last_df (recs.map spRow7)).rows

/-- Amended C5, prices-by-date endpoint: date coerced, but the index is
`insId`, ascending. -/
def C5Date (recs : List SpRec7) : Prop :=
  (get_stock_prices_date_df (recs.map spRow7)).columns
    = ["date", "close", "high", "low", "open", "volume"]
  ∧ (get_stock_prices_date_df (recs.map spRow7)).indexCols = ["insId"]
  ∧ (get_stock_prices_date_df (recs.map spRow7)).rows.Perm
      (recs.map spOutRow7)
  ∧ List.Chain' (fun r₁ r₂ => rowLeBy ["insId"] true r₁ r₂ = true)
      (get_stock_prices_date_df (recs.map spRow7)).rows

/-- Amended C7, report-metadata side: misspelling fixed, underscores
stripped, result indexed by the cleaned column. -/
def C7Reports (rm : List RmRec) : Prop :=
  (get_reports_metadata_df (rm.map rmRow)).indexCols = ["reportProperty"]
  ∧ (get_reports_metadata_df (rm.map rmRow)).columns = ["nameEn"]
  ∧ (get_reports_metadata_df (rm.map rmRow)).rows.Perm
      (rm.map (fun r =>
        [("reportProperty", Cell.s (stripUnderscores r.reportPropery)),
         ("nameEn", Cell.s r.nameEn)]))

/-- C9's conclusion: any two request starts are at least 1/10 s apart,
the whole sequence of `N` calls spans at least `(N-1)/10` s of wall-clock
time, and every call ends by stamping the current time into
`_last_api_call`. -/
def C9Concl (st : ThrottleState) (steps : List (Rat × Rat)) : Prop :=
  List.Pairwise (fun a b => a + 1 / 10 ≤ b) (runCalls st steps).1
  ∧ ((steps.length : Rat) - 1) / 10 ≤ (runCalls st steps).2.clock - st.clock
  ∧ (∀ s pre dur, (callStep s pre dur).2.lastApiCall = (callStep s pre dur).2.clock)

/-! # Theorems -/

/-! ## Dict-update lemmas -/

theorem lookupP_setKey_self (ps : Params) (k : String) (v : PValue) :
    lookupP (setKey ps k v) k = some v := by
  induction ps with
  | nil => simp [setKey, lookupP]
  | cons kv rest ih =>
    by_cases h : kv.1 = k
    · simp [setKey, h, lookupP]
    · simp only [setKey, if_neg h]
      simpa [lookupP, List.find?, h] using ih

theorem lookupP_setKey_other (ps : Params) (k k' : String) (v : PValue)
    (h : k' ≠ k) : lookupP (setKey ps k v) k' = lookupP ps k' := by
  induction ps with
  | nil => simp [setKey, lookupP, Ne.symm h]
  | cons kv rest ih =>
    by_cases hk : kv.1 = k
    · subst hk
      simp [setKey, lookupP, List.find?, Ne.symm h]
    · by_cases hk' : kv.1 = k'
      · have h1 : setKey (kv :: rest) k v = kv :: setKey rest k v := by
          simp [setKey, hk]
        rw [h1]
        unfold lookupP
        rw [List.find?_cons_of_pos _ (by simp [hk']),
            List.find?_cons_of_pos _ (by simp [hk'])]
      · simp only [setKey, if_neg hk]
        simpa [lookupP, List.find?, hk'] using ih

theorem targetKey_cases (k t : String) (h : targetKey k = some t) :
    (k = "from_date" ∧ t = "from") ∨ ((k = "to" ∨ k = "date") ∧ t = k)
    ∨ (k = "instList" ∧ t = "instList") := by
  unfold targetKey at h
  split_ifs at h with h1 h2 h3 <;> simp_all

/-- Keyword arguments that write no parameter named `k` leave the `k`
entry of the dict exactly as it was. -/
theorem getParamsAux_lookup_frame (k : String) :
    ∀ (kws : List (String × Option PValue)) (ps : Params)
      (ds : List (String × PValue)),
    (∀ kw ∈ kws, kw.2 = none ∨ targetKey kw.1 ≠ some k) →
    lookupP (getParamsAux ps ds kws).1 k = lookupP ps k := by
  intro kws
  induction kws with
  | nil => intro ps ds _; rfl
  | cons kw rest ih =>
    intro ps ds hall
    obtain ⟨k₀, v₀⟩ := kw
    have htail : ∀ kw ∈ rest, kw.2 = none ∨ targetKey kw.1 ≠ some k :=
      fun kw hkw => hall kw (List.mem_cons_of_mem _ hkw)
    match v₀ with
    | none => exact ih ps ds htail
    | some v =>
      have htk : targetKey k₀ ≠ some k := by
        rcases hall ⟨k₀, some v⟩ (List.mem_cons_self _ _) with h | h
        · exact absurd h (by simp)
        · exact h
      by_cases h1 : k₀ = "from_date"
      · have hfk : k ≠ "from" := fun hc => htk (by simp [targetKey, h1, hc])
        have hstep : getParamsAux ps ds ((k₀, some v) :: rest)
            = getParamsAux (setKey ps "from" v) ds rest := by
          simp [getParamsAux, h1]
        rw [hstep, ih _ _ htail, lookupP_setKey_other _ _ _ _ hfk]
      · by_cases h2 : k₀ = "to" ∨ k₀ = "date"
        · have hfk : k ≠ k₀ := fun hc => htk (by simp [targetKey, h1, h2, hc])
          have hstep : getParamsAux ps ds ((k₀, some v) :: rest)
              = getParamsAux (setKey ps k₀ v) ds rest := by
            simp [getParamsAux, h1, h2]
          rw [hstep, ih _ _ htail, lookupP_setKey_other _ _ _ _ hfk]
        · by_cases h3 : k₀ = "instList"
          · have hfk : k ≠ "instList" := fun hc =>
              htk (by simp [targetKey, h1, h2, h3, hc])
            have hstep : getParamsAux ps ds ((k₀, some v) :: rest)
                = getParamsAux (setKey ps "instList" (.str (joinInstList v))) ds rest := by
              simp [getParamsAux, h1, h2, h3]
            rw [hstep, ih _ _ htail, lookupP_setKey_other _ _ _ _ hfk]
          · have hstep : getParamsAux ps ds ((k₀, some v) :: rest)
                = getParamsAux ps (ds ++ [(k₀, v)]) rest := by
              simp [getParamsAux, h1, h2, h3]
            rw [hstep, ih _ _ htail]

theorem getParamsAux_cons_some (ps : Params) (ds : List (String × PValue))
    (k₀ : String) (v : PValue) (rest : List (String × Option PValue)) :
    getParamsAux ps ds ((k₀, some v) :: rest)
      = if k₀ = "from_date" then getParamsAux (setKey ps "from" v) ds rest
        else if k₀ = "to" ∨ k₀ = "date" then getParamsAux (setKey ps k₀ v) ds rest
        else if k₀ = "instList" then
          getParamsAux (setKey ps "instList" (.str (joinInstList v))) ds rest
        else getParamsAux ps (ds ++ [(k₀, v)]) rest := rfl

theorem targetKey_inj (a b t : String) (ha : targetKey a = some t)
    (hb : targetKey b = some t) : a = b := by
  rcases targetKey_cases a t ha with ⟨h1, h2⟩ | ⟨h1, h2⟩ | ⟨h1, h2⟩ <;>
    rcases targetKey_cases b t hb with ⟨g1, g2⟩ | ⟨g1, g2⟩ | ⟨g1, g2⟩ <;>
    subst h2 <;> simp_all <;> rcases h1 with h1 | h1 <;> rcases g1 with g1 | g1 <;>
    simp_all

theorem targetKey_ne_from_date (a : String) : targetKey a ≠ some "from_date" := by
  intro h
  rcases targetKey_cases a _ h with ⟨h1, h2⟩ | ⟨h1, h2⟩ | ⟨h1, h2⟩
  · exact absurd h2 (by decide)
  · rcases h1 with h1 | h1 <;> subst h1 <;> exact absurd h2 (by decide)
  · exact absurd h2 (by decide)

/-- Diagnostics already collected stay collected. -/
theorem getParamsAux_ds_mono :
    ∀ (kws : List (String × Option PValue)) (ps : Params)
      (ds : List (String × PValue)) (x : String × PValue),
    x ∈ ds → x ∈ (getParamsAux ps ds kws).2 := by
  intro kws
  induction kws with
  | nil => intro ps ds x hx; exact hx
  | cons kw rest ih =>
    intro ps ds x hx
    obtain ⟨k₀, v₀⟩ := kw
    match v₀ with
    | none => exact ih ps ds x hx
    | some v =>
      rw [getParamsAux_cons_some]
      split_ifs <;>
        first
        | exact ih _ _ x hx
        | exact ih _ _ x (List.mem_append_left _ hx)

/-- Every diagnostic comes from an unrecognised keyword argument. -/
theorem getParamsAux_ds_sound :
    ∀ (kws : List (String × Option PValue)) (ps : Params)
      (ds : List (String × PValue)) (x : String × PValue),
    x ∈ (getParamsAux ps ds kws).2 →
    x ∈ ds ∨ ((x.1, some x.2) ∈ kws ∧ targetKey x.1 = none) := by
  intro kws
  induction kws with
  | nil => intro ps ds x hx; exact Or.inl hx
  | cons kw rest ih =>
    intro ps ds x hx
    obtain ⟨k₀, v₀⟩ := kw
    match v₀ with
    | none =>
      rcases ih ps ds x hx with h | ⟨h1, h2⟩
      · exact Or.inl h
      · exact Or.inr ⟨List.mem_cons_of_mem _ h1, h2⟩
    | some v =>
      rw [getParamsAux_cons_some] at hx
      split_ifs at hx with h1 h2 h3
      · rcases ih _ _ x hx with h | ⟨g1, g2⟩
        · exact Or.inl h
        · exact Or.inr ⟨List.mem_cons_of_mem _ g1, g2⟩
      · rcases ih _ _ x hx with h | ⟨g1, g2⟩
        · exact Or.inl h
        · exact Or.inr ⟨List.mem_cons_of_mem _ g1, g2⟩
      · rcases ih _ _ x hx with h | ⟨g1, g2⟩
        · exact Or.inl h
        · exact Or.inr ⟨List.mem_cons_of_mem _ g1, g2⟩
      · rcases ih _ _ x hx with h | ⟨g1, g2⟩
        · rcases List.mem_append.mp h with h' | h'
          · exact Or.inl h'
          · rcases List.mem_singleton.mp h' with rfl
            refine Or.inr ⟨List.mem_cons_self _ _, ?_⟩
            unfold targetKey
            rw [if_neg h1, if_neg h2, if_neg h3]
        · exact Or.inr ⟨List.mem_cons_of_mem _ g1, g2⟩

/-- Every unrecognised keyword argument with a non-`None` value is
diagnosed. -/
theorem getParamsAux_ds_complete :
    ∀ (kws : List (String × Option PValue)) (ps : Params)
      (ds : List (String × PValue)) (k : String) (v : PValue),
    (k, some v) ∈ kws → targetKey k = none →
    (k, v) ∈ (getParamsAux ps ds kws).2 := by
  intro kws
  induction kws with
  | nil => intro ps ds k v hmem; exact absurd hmem (List.not_mem_nil _)
  | cons kw rest ih =>
    intro ps ds k v hmem htk
    obtain ⟨k₀, v₀⟩ := kw
    rcases List.mem_cons.mp hmem with heq | hmemtail
    · have hk : k = k₀ := congrArg Prod.fst heq
      have hv : some v = v₀ := congrArg Prod.snd heq
      subst hk
      rw [← hv]
      have h1 : ¬k = "from_date" := by
        intro hc; rw [hc] at htk; exact absurd htk (by decide)
      have h2 : ¬(k = "to" ∨ k = "date") := by
        intro hc; rcases hc with hc | hc <;> rw [hc] at htk <;>
          exact absurd htk (by decide)
      have h3 : ¬k = "instList" := by
        intro hc; rw [hc] at htk; exact absurd htk (by decide)
      rw [getParamsAux_cons_some, if_neg h1, if_neg h2, if_neg h3]
      exact getParamsAux_ds_mono _ _ _ _ (List.mem_append_right _ (by simp))
    · match v₀ with
      | none => exact ih ps ds k v hmemtail htk
      | some w =>
        rw [getParamsAux_cons_some]
        split_ifs <;> exact ih _ _ k v hmemtail htk

/-- A recognised keyword argument ends up, encoded, under its target key
(keyword names are unique, as Python guarantees for `**kwargs`). -/
theorem getParamsAux_writes :
    ∀ (kws : List (String × Option PValue)) (ps : Params)
      (ds : List (String × PValue)) (k₀ t : String) (v : PValue),
    (kws.map Prod.fst).Nodup → (k₀, some v) ∈ kws → targetKey k₀ = some t →
    lookupP (getParamsAux ps ds kws).1 t
      = some (if k₀ = "instList" then .str (joinInstList v) else v) := by
  intro kws
  induction kws with
  | nil => intro ps ds k₀ t v _ hmem; exact absurd hmem (List.not_mem_nil _)
  | cons kw rest ih =>
    intro ps ds k₀ t v hnd hmem htk
    obtain ⟨hk, hv⟩ := kw
    have hndtail : (rest.map Prod.fst).Nodup := (List.nodup_cons.mp hnd).2
    have hhead : hk ∉ rest.map Prod.fst := (List.nodup_cons.mp hnd).1
    rcases List.mem_cons.mp hmem with heq | hmemtail
    · have hk0 : k₀ = hk := congrArg Prod.fst heq
      have hv0 : some v = hv := congrArg Prod.snd heq
      subst hk0
      rw [← hv0]
      have hframe : ∀ kw ∈ rest, kw.2 = none ∨ targetKey kw.1 ≠ some t := by
        intro kw hkw
        by_cases hn : kw.2 = none
        · exact Or.inl hn
        · refine Or.inr fun hc => ?_
          have : kw.1 = k₀ := targetKey_inj _ _ _ hc htk
          exact hhead (this ▸ List.mem_map_of_mem Prod.fst hkw)
      rcases targetKey_cases k₀ t htk with ⟨hc1, hc2⟩ | ⟨hc1, hc2⟩ | ⟨hc1, hc2⟩
      · subst hc1; subst hc2
        rw [getParamsAux_cons_some, if_pos rfl,
          getParamsAux_lookup_frame _ _ _ _ hframe, lookupP_setKey_self,
          if_neg (by decide)]
      · rcases hc1 with hc1 | hc1 <;> subst hc1 <;> subst hc2
        · rw [getParamsAux_cons_some, if_neg (by decide), if_pos (Or.inl rfl),
            getParamsAux_lookup_frame _ _ _ _ hframe, lookupP_setKey_self,
            if_neg (by decide)]
        · rw [getParamsAux_cons_some, if_neg (by decide), if_pos (Or.inr rfl),
            getParamsAux_lookup_frame _ _ _ _ hframe, lookupP_setKey_self,
            if_neg (by decide)]
      · subst hc1; subst hc2
        rw [getParamsAux_cons_some, if_neg (by decide), if_neg (by decide),
          if_pos rfl, getParamsAux_lookup_frame _ _ _ _ hframe,
          lookupP_setKey_self, if_pos rfl]
    · match hv with
      | none => exact ih ps ds k₀ t v hndtail hmemtail htk
      | some w =>
        rw [getParamsAux_cons_some]
        by_cases g1 : hk = "from_date"
        · rw [if_pos g1]; exact ih _ _ k₀ t v hndtail hmemtail htk
        · rw [if_neg g1]
          by_cases g2 : hk = "to" ∨ hk = "date"
          · rw [if_pos g2]; exact ih _ _ k₀ t v hndtail hmemtail htk
          · rw [if_neg g2]
            by_cases g3 : hk = "instList"
            · rw [if_pos g3]; exact ih _ _ k₀ t v hndtail hmemtail htk
            · rw [if_neg g3]; exact ih _ _ k₀ t v hndtail hmemtail htk

/-- C1 (counterexample): the claim says `to_date` overrides are recognised
and used verbatim, with only keys outside `{from_date, to_date, date,
instList}` diagnosed and dropped.  On the code, a `to_date` keyword hits
the `else` branch of `_get_params`: the value is dropped entirely (it
reaches neither `to_date` nor `to` in the result) and an `"Unknown
param"` diagnostic is printed. -/
theorem C1_counterexample_to_date_dropped :
    getParams (init_params "demo") [("to_date", some (.str "2023-01-01"))]
      = (init_params "demo", [("to_date", PValue.str "2023-01-01")])
    ∧ lookupP (getParams (init_params "demo")
        [("to_date", some (.str "2023-01-01"))]).1 "to_date" = none
    ∧ lookupP (getParams (init_params "demo")
        [("to_date", some (.str "2023-01-01"))]).1 "to" = none
    ∧ (getParams (init_params "demo")
        [("to_date", some (.str "2023-01-01"))]).2 ≠ [] := by
  refine ⟨by decide, by decide, by decide, by decide⟩

/-- C1 (amended): `_get_params` overlays recognised overrides on the base
dict with the encoding rules of the source: `from_date` is emitted under
the server key `from` and never as `from_date`; `to` and `date` (the code
recognises `to`, not `to_date` — callers pass their `to_date` argument as
the keyword `to`) are used verbatim; an `instList` list is comma-joined
preserving order; every other key with a non-`None` value produces the
non-fatal `"Unknown param"` diagnostic and is excluded from the result;
parameters no keyword writes are left untouched. -/
theorem C1_amended_get_params (base : Params)
    (kwargs : List (String × Option PValue))
    (hnd : (kwargs.map Prod.fst).Nodup)
    (hbase : lookupP base "from_date" = none) : C1Concl base kwargs := by
  refine ⟨?_, ?_, ?_, ?_, ?_, ?_, ?_, ?_⟩
  · rw [getParams, getParamsAux_lookup_frame _ _ _ _
      (fun kw _ => or_iff_not_imp_left.mpr (fun _ => targetKey_ne_from_date kw.1))]
    exact hbase
  · intro v hv
    have h := getParamsAux_writes kwargs base [] "from_date" "from" v hnd hv rfl
    rwa [if_neg (by decide)] at h
  · intro v hv
    have h := getParamsAux_writes kwargs base [] "to" "to" v hnd hv rfl
    rwa [if_neg (by decide)] at h
  · intro v hv
    have h := getParamsAux_writes kwargs base [] "date" "date" v hnd hv rfl
    rwa [if_neg (by decide)] at h
  · intro l hl
    have h := getParamsAux_writes kwargs base [] "instList" "instList"
      (.intList l) hnd hl rfl
    rwa [if_pos rfl] at h
  · intro k v hkv hk4
    have hne1 : k ≠ "from_date" := fun hc => hk4 (by simp [hc])
    have hne2 : k ≠ "to" := fun hc => hk4 (by simp [hc])
    have hne3 : k ≠ "date" := fun hc => hk4 (by simp [hc])
    have hne4 : k ≠ "instList" := fun hc => hk4 (by simp [hc])
    have htk : targetKey k = none := by
      unfold targetKey
      rw [if_neg hne1, if_neg (not_or.mpr ⟨hne2, hne3⟩), if_neg hne4]
    refine ⟨getParamsAux_ds_complete kwargs base [] k v hkv htk, fun hkfrom => ?_⟩
    rw [getParams, getParamsAux_lookup_frame]
    intro kw hkw
    by_cases hn : kw.2 = none
    · exact Or.inl hn
    · refine Or.inr fun hc => ?_
      rcases targetKey_cases kw.1 k hc with ⟨g1, g2⟩ | ⟨g1, g2⟩ | ⟨g1, g2⟩
      · exact hkfrom g2
      · rcases g1 with g1 | g1 <;> rw [g1] at g2
        · exact hne2 g2
        · exact hne3 g2
      · exact hne4 g2
  · intro k v hkv
    rcases getParamsAux_ds_sound kwargs base [] (k, v) hkv with h | ⟨h1, h2⟩
    · exact absurd h (List.not_mem_nil _)
    · refine ⟨h1, fun hk4 => ?_⟩
      have hne : targetKey k ≠ none := by
        simp only [List.mem_cons, List.not_mem_nil, or_false] at hk4
        rcases hk4 with rfl | rfl | rfl | rfl <;> simp [targetKey]
      exact hne h2
  · intro k hk hkfrom
    rw [getParams, getParamsAux_lookup_frame]
    intro kw hkw
    by_cases hn : kw.2 = none
    · exact Or.inl hn
    · refine Or.inr fun hc => ?_
      rcases targetKey_cases kw.1 k hc with ⟨g1, g2⟩ | ⟨g1, g2⟩ | ⟨g1, g2⟩
      · exact hkfrom g2
      · have hkk : k ∈ kwargs.map Prod.fst := by
          rw [g2]; exact List.mem_map_of_mem Prod.fst hkw
        exact hk hkk
      · have hkk : k ∈ kwargs.map Prod.fst := by
          rw [g2, ← g1]; exact List.mem_map_of_mem Prod.fst hkw
        exact hk hkk

/-- Witness for C1 at a concrete call: base session parameters plus a
`from_date`, a `to`, an `instList` and a bogus `page` override. -/
theorem C1_amended_get_params_witness :
    (((([("from_date", some (PValue.str "2022-01-01")),
        ("to", some (PValue.str "2022-12-31")),
        ("instList", some (PValue.intList [2, 3, 4, 5])),
        ("page", some (PValue.int 2))] :
          List (String × Option PValue)).map Prod.fst).Nodup)
      ∧ lookupP (init_params "demo") "from_date" = none)
    ∧ C1Concl (init_params "demo")
        [("from_date", some (PValue.str "2022-01-01")),
         ("to", some (PValue.str "2022-12-31")),
         ("instList", some (PValue.intList [2, 3, 4, 5])),
         ("page", some (PValue.int 2))] :=
  ⟨⟨by decide, by decide⟩,
   C1_amended_get_params (init_params "demo")
     [("from_date", some (PValue.str "2022-01-01")),
      ("to", some (PValue.str "2022-12-31")),
      ("instList", some (PValue.intList [2, 3, 4, 5])),
      ("page", some (PValue.int 2))] (by decide) (by decide)⟩

set_option maxRecDepth 16384 in
/-- C2: the spec requires both batch endpoints to refuse more than 50 ids
before any network traffic.  `get_instrument_descriptions` does (guard at
source line 203), but `get_report_calendar` has no guard: with 51 ids it
still issues its HTTP GET, with all 51 ids joined into `instList`. -/
theorem C2_report_calendar_has_no_guard :
    ((List.range 51).map (fun n => (n : Int))).length = 51
    ∧ get_instrument_descriptions_requests (init_params "demo")
        ((List.range 51).map (fun n => (n : Int))) = []
    ∧ get_instrument_descriptions_guard
        ((List.range 51).map (fun n => (n : Int))) = none
    ∧ (get_report_calendar_requests (init_params "demo")
        ((List.range 51).map (fun n => (n : Int)))).length = 1
    ∧ (get_report_calendar_requests (init_params "demo")
        ((List.range 51).map (fun n => (n : Int)))).map
          (fun r => lookupP r.params "instList")
      = [some (.str (String.intercalate ","
          (((List.range 51).map (fun n => (n : Int))).map (fun n => toString n))))] := by
  refine ⟨by decide, by decide, by decide, rfl, by decide⟩

/-- C3: the claim says no endpoint operation mutates the session's base
parameter dict.  But `get_kpi_summary(…, max_count=5)` executes
`self._params["maxCount"] = max_count`, permanently overwriting the
session-wide default 20 with 5 (and `get_instrument_report` does the
same); only a `None` `max_count` leaves the dict alone. -/
theorem C3_max_count_mutates_session_params :
    get_kpi_summary_params_after (init_params "demo") (some 5)
      ≠ init_params "demo"
    ∧ lookupP (get_kpi_summary_params_after (init_params "demo") (some 5))
        "maxCount" = some (.int 5)
    ∧ lookupP (init_params "demo") "maxCount" = some (.int 20)
    ∧ get_instrument_report_params_after (init_params "demo") (some 5)
      ≠ init_params "demo"
    ∧ (∀ ps : Params, get_kpi_summary_params_after ps none = ps)
    ∧ (∀ ps : Params, get_instrument_report_params_after ps none = ps) :=
  ⟨by decide, by decide, by decide, by decide, fun ps => rfl, fun ps => rfl⟩

/-- C10: `get_kpi_history` builds a local parameter dict incorporating
`max_count` (even overriding `maxCount` when given), but then calls
`self._call_api(url)` without passing it, so any two `max_count` values
produce the identical outbound request, whose query parameters are just
the session dict. -/
theorem C10_max_count_never_sent (sessionParams : Params) (apiKey : String)
    (ins_id kpi_id : Int) (report_type price_type : String) (a b : Option Int) :
    get_kpi_history_request sessionParams ins_id kpi_id report_type price_type a
      = get_kpi_history_request sessionParams ins_id kpi_id report_type price_type b
    ∧ (get_kpi_history_request sessionParams ins_id kpi_id report_type
        price_type a).params = sessionParams
    ∧ (∀ m : Int, lookupP (get_kpi_history_local_params apiKey (some m))
        "maxCount" = some (.int m))
    ∧ lookupP (get_kpi_history_local_params apiKey none) "maxCount"
      = some (.int 20) := by
  refine ⟨rfl, rfl, fun m => rfl, rfl⟩

/-- C4 (counterexample): the claim says a non-2xx response reaches the
caller as a distinguished failure value carrying the status code and
body.  In the code `_call_api` returns the raw `Response`, and
`get_branches` then runs `json_data["branches"]` on it, raising
`TypeError` — the caller sees an exception that carries neither the
status code nor the body: two failures with different statuses and bodies
are indistinguishable. -/
theorem C4_counterexample_failure_drops_status :
    get_branches_run ⟨500, "Internal Server Error", []⟩
      = .exn (.typeError "Response object is not subscriptable")
    ∧ get_branches_run ⟨500, "Internal Server Error", []⟩
      = get_branches_run ⟨404, "Not Found", []⟩
    ∧ (∀ df : DataFrame, get_branches_run ⟨500, "Internal Server Error", []⟩
        ≠ .ok df) :=
  ⟨by decide, by decide, fun df h => by cases h⟩

/-- C4 (amended): on every non-2xx status, `_call_api` returns the raw
response object (which does carry status code and body) without retrying
and without reshaping any payload; the endpoint operation then fails with
a `TypeError` while subscripting it, so the caller observes an exception
rather than a returned failure value. -/
theorem C4_amended_non2xx_behaviour (r : HttpResp) (h : r.status ≠ 200) :
    callApi r = .response r
    ∧ get_branches_run r
      = .exn (.typeError "Response object is not subscriptable") := by
  refine ⟨by simp [callApi, h], ?_⟩
  simp [get_branches_run, pySubscript, callApi, h]

/-- Witness for C4 at status 500. -/
theorem C4_amended_non2xx_behaviour_witness :
    ((500 : Int) ≠ 200)
    ∧ callApi ⟨500, "Internal Server Error", [("branches", [])]⟩
      = .response ⟨500, "Internal Server Error", [("branches", [])]⟩
    ∧ get_branches_run ⟨500, "Internal Server Error", [("branches", [])]⟩
      = .exn (.typeError "Response object is not subscriptable") :=
  ⟨by decide,
   (C4_amended_non2xx_behaviour ⟨500, "Internal Server Error",
      [("branches", [])]⟩ (by decide)).1,
   (C4_amended_non2xx_behaviour ⟨500, "Internal Server Error",
      [("branches", [])]⟩ (by decide)).2⟩

/-- C8: whenever any declared index column (single name or list of names)
is missing from the frame's columns, `_set_index` returns early: the
frame comes back un-indexed and completely unchanged — same rows, same
columns, no error. -/
theorem C8_missing_index_is_noop (df : DataFrame) (spec : IndexSpec)
    (asc : Bool)
    (h : match spec with
         | .one k => k ∉ df.columns
         | .many ks => ∃ k ∈ ks, k ∉ df.columns) :
    setIndex df spec asc = df
    ∧ (setIndex df spec asc).rows.length = df.rows.length
    ∧ (setIndex df spec asc).columns.length = df.columns.length
    ∧ (setIndex df spec asc).indexCols = df.indexCols := by
  have heq : setIndex df spec asc = df := by
    cases spec with
    | one k =>
      simp only [setIndex]
      rw [if_neg]
      simpa using h
    | many ks =>
      simp only [setIndex]
      rw [if_neg]
      obtain ⟨k, hk, hnk⟩ := h
      intro hall
      rw [List.all_eq_true] at hall
      exact hnk (by simpa using hall k hk)
  exact ⟨heq, by rw [heq], by rw [heq], by rw [heq]⟩

/-- Witness for C8: a one-column frame asked to index by an absent
column `b`, in both the single-name and the name-list form. -/
theorem C8_missing_index_is_noop_witness :
    ("b" ∉ (DataFrame.mk ["a"] [] [[("a", Cell.n 1)]]).columns)
    ∧ setIndex (DataFrame.mk ["a"] [] [[("a", Cell.n 1)]]) (.one "b") true
      = DataFrame.mk ["a"] [] [[("a", Cell.n 1)]]
    ∧ setIndex (DataFrame.mk ["a"] [] [[("a", Cell.n 1)]]) (.many ["a", "b"]) true
      = DataFrame.mk ["a"] [] [[("a", Cell.n 1)]] :=
  ⟨by decide,
   (C8_missing_index_is_noop (DataFrame.mk ["a"] [] [[("a", Cell.n 1)]])
     (.one "b") true (by decide)).1,
   (C8_missing_index_is_noop (DataFrame.mk ["a"] [] [[("a", Cell.n 1)]])
     (.many ["a", "b"]) true (by decide)).1⟩

/-- One throttled call starts at least 1/10 s after the previous stamp
and never before the current clock. -/
theorem callStep_start_ge (st : ThrottleState) (p d : Rat) (hp : 0 ≤ p) :
    st.lastApiCall + 1 / 10 ≤ (callStep st p d).1
    ∧ st.clock ≤ (callStep st p d).1 := by
  simp only [callStep]
  split_ifs with h
  · constructor <;> linarith
  · constructor <;> linarith

/-- The master invariant of consecutive throttled calls. -/
theorem runCalls_aux :
    ∀ (steps : List (Rat × Rat)) (st : ThrottleState),
    (∀ x ∈ steps, 0 ≤ x.1 ∧ 0 ≤ x.2) → st.lastApiCall ≤ st.clock →
    List.Chain' (fun a b => a + 1 / 10 ≤ b) (runCalls st steps).1
    ∧ (∀ s ∈ (runCalls st steps).1,
        st.lastApiCall + 1 / 10 ≤ s ∧ st.clock ≤ s)
    ∧ st.clock ≤ (runCalls st steps).2.clock
    ∧ (runCalls st steps).2.lastApiCall ≤ (runCalls st steps).2.clock
    ∧ st.clock + ((steps.length : Rat) - 1) / 10 ≤ (runCalls st steps).2.clock
    ∧ st.lastApiCall + (steps.length : Rat) / 10 ≤ (runCalls st steps).2.clock := by
  intro steps
  induction steps with
  | nil =>
    intro st _ h2
    refine ⟨List.chain'_nil, fun s hs => absurd hs (List.not_mem_nil _),
      le_refl _, h2, by simp [runCalls]; linarith, by simp [runCalls]; linarith⟩
  | cons step rest ih =>
    intro st hall h2
    obtain ⟨p, d⟩ := step
    have hp : 0 ≤ p := (hall (p, d) (List.mem_cons_self _ _)).1
    have hd : 0 ≤ d := (hall (p, d) (List.mem_cons_self _ _)).2
    have htail : ∀ x ∈ rest, 0 ≤ x.1 ∧ 0 ≤ x.2 :=
      fun x hx => hall x (List.mem_cons_of_mem _ hx)
    have hs₁ := callStep_start_ge st p d hp
    have hclock : (callStep st p d).2.clock = (callStep st p d).1 + d := rfl
    have hlast : (callStep st p d).2.lastApiCall = (callStep st p d).2.clock := rfl
    obtain ⟨ichain, imem, iclock, ilast, itot1, itot2⟩ :=
      ih (callStep st p d).2 htail (le_of_eq hlast)
    have hrun : runCalls st ((p, d) :: rest)
        = ((callStep st p d).1 :: (runCalls (callStep st p d).2 rest).1,
           (runCalls (callStep st p d).2 rest).2) := rfl
    rw [hrun]
    refine ⟨?_, ?_, ?_, ilast, ?_, ?_⟩
    · rw [List.chain'_cons']
      refine ⟨fun y hy => ?_, ichain⟩
      have hmem := imem y (List.mem_of_mem_head? hy)
      have := hmem.1
      rw [hlast, hclock] at this
      linarith
    · intro s hs
      rcases List.mem_cons.mp hs with rfl | hs'
      · exact hs₁
      · have hmem := imem s hs'
        have ha := hmem.1
        have hb := hmem.2
        rw [hlast, hclock] at ha
        rw [hclock] at hb
        constructor <;> linarith [hs₁.1, hs₁.2]
    · have := iclock
      rw [hclock] at this
      linarith [hs₁.2]
    · have := itot2
      rw [hlast, hclock] at this
      simp only [List.length_cons]
      push_cast
      linarith [hs₁.2]
    · have := itot2
      rw [hlast, hclock] at this
      simp only [List.length_cons]
      push_cast
      linarith [hs₁.1]

/-- C9: with the fixed `calls_per_second = 10`, any two of the `N`
request-start instants of consecutive calls on one session lie at least
1/10 s apart, the whole sequence spans at least `(N-1)/10` s of
wall-clock time, and every call updates `_last_api_call` to the current
time. -/
theorem C9_throttling (st : ThrottleState) (steps : List (Rat × Rat))
    (hsteps : ∀ x ∈ steps, 0 ≤ x.1 ∧ 0 ≤ x.2)
    (hinit : st.lastApiCall ≤ st.clock) : C9Concl st steps := by
  obtain ⟨hchain, _, _, _, htot, _⟩ := runCalls_aux steps st hsteps hinit
  refine ⟨?_, by linarith, fun s pre dur => rfl⟩
  have htrans : IsTrans Rat (fun a b => a + 1 / 10 ≤ b) :=
    ⟨fun a b c hab hbc => by
      have h1 : a + 1 / 10 ≤ b := hab
      have h2 : b + 1 / 10 ≤ c := hbc
      show a + 1 / 10 ≤ c
      linarith⟩
  exact (@List.chain'_iff_pairwise _ _ htrans _).mp hchain

/-- Witness for C9: three calls arriving immediately (no caller work, no
transport latency) on a fresh session whose clock starts at 5 s. -/
theorem C9_throttling_witness :
    ((∀ x ∈ ([(0, 0), (0, 0), (0, 0)] : List (Rat × Rat)), 0 ≤ x.1 ∧ 0 ≤ x.2)
      ∧ (ThrottleState.mk 5 0).lastApiCall ≤ (ThrottleState.mk 5 0).clock)
    ∧ C9Concl (ThrottleState.mk 5 0) [(0, 0), (0, 0), (0, 0)] :=
  ⟨⟨by decide, by decide⟩,
   C9_throttling (ThrottleState.mk 5 0) [(0, 0), (0, 0), (0, 0)]
     (by decide) (by decide)⟩

/-! ## List machinery: first-seen dedup, comparisons, sorting -/

theorem mem_firstSeen {α : Type} [DecidableEq α] (x : α) :
    ∀ l : List α, x ∈ firstSeen l ↔ x ∈ l := by
  intro l
  induction l with
  | nil => simp [firstSeen]
  | cons a rest ih =>
    by_cases h : x = a
    · subst h; simp [firstSeen]
    · simp [firstSeen, h, ih]

theorem nodup_firstSeen {α : Type} [DecidableEq α] :
    ∀ l : List α, (firstSeen l).Nodup := by
  intro l
  induction l with
  | nil => exact List.nodup_nil
  | cons a rest ih =>
    rw [firstSeen, List.nodup_cons]
    refine ⟨fun hmem => ?_, List.Nodup.filter _ ih⟩
    have := List.of_mem_filter hmem
    simp at this

theorem filter_firstSeen {α : Type} [DecidableEq α] (p : α → Bool) :
    ∀ l : List α, (firstSeen l).filter p = firstSeen (l.filter p) := by
  intro l
  induction l with
  | nil => rfl
  | cons a rest ih =>
    by_cases h : p a
    · rw [firstSeen, List.filter_cons_of_pos h, List.filter_cons_of_pos h,
        firstSeen, ← ih, List.filter_comm, List.filter_comm (fun x => x ≠ a)]
    · rw [firstSeen, List.filter_cons_of_neg h, List.filter_cons_of_neg h, ← ih]
      rw [List.filter_comm]
      have : List.filter p (firstSeen rest) =
          (List.filter p (firstSeen rest)).filter (fun x => x ≠ a) := by
        symm
        rw [List.filter_eq_self]
        intro b hb
        have hpb := List.of_mem_filter hb
        simp only [decide_eq_true_eq]
        intro hba
        rw [hba] at hpb
        exact h hpb
      exact this.symm

theorem firstSeen_append {α : Type} [DecidableEq α] :
    ∀ (xs ys : List α),
    firstSeen (xs ++ ys)
      = firstSeen xs ++ (firstSeen ys).filter (fun y => y ∉ xs) := by
  intro xs
  induction xs with
  | nil =>
    intro ys
    simp [firstSeen]
  | cons a rest ih =>
    intro ys
    rw [List.cons_append, firstSeen, firstSeen, ih ys, List.filter_append,
      List.filter_filter]
    congr 2
    apply List.filter_congr
    intro y hy
    simp only [List.mem_cons, decide_not]
    rcases Decidable.em (y = a) with h | h <;> rcases Decidable.em (y ∈ rest) with g | g <;>
      simp [h, g]

theorem firstSeen_append_subset {α : Type} [DecidableEq α]
    (xs ys : List α) (hsub : ∀ y ∈ ys, y ∈ xs) :
    firstSeen (xs ++ ys) = firstSeen xs := by
  rw [firstSeen_append]
  have : (firstSeen ys).filter (fun y => y ∉ xs) = [] := by
    rw [List.filter_eq_nil_iff]
    intro y hy
    simp only [decide_not, Bool.not_eq_true', decide_eq_false_iff_not, not_not]
    exact hsub y ((mem_firstSeen y ys).mp hy)
  rw [this, List.append_nil]

/-- Flattening identical key lists collapses to one copy. -/
theorem firstSeen_flatMap_const {α β : Type} [DecidableEq α] (K : List α) :
    ∀ (l : List β), l ≠ [] →
    firstSeen (l.flatMap (fun _ => K)) = firstSeen K := by
  intro l
  induction l with
  | nil => intro h; exact absurd rfl h
  | cons b rest ih =>
    intro _
    cases rest with
    | nil => simp [List.flatMap]
    | cons c cs =>
      rw [List.flatMap_cons]
      rw [firstSeen_append_subset _ _ ?_, ]
      · intro y hy
        rcases List.mem_flatMap.mp hy with ⟨_, _, hmem⟩
        exact hmem

/-- Permutation facts for the sorting model. -/
theorem insertSorted_perm {α : Type} (le : α → α → Bool) (a : α) :
    ∀ l : List α, (insertSorted le a l).Perm (a :: l) := by
  intro l
  induction l with
  | nil => exact List.Perm.refl _
  | cons b bs ih =>
    by_cases h : le a b
    · rw [insertSorted, if_pos h]
    · rw [insertSorted, if_neg h]
      exact (ih.cons b).trans (List.Perm.swap a b bs)

theorem isort_perm {α : Type} (le : α → α → Bool) :
    ∀ l : List α, (isort le l).Perm l := by
  intro l
  induction l with
  | nil => exact List.Perm.refl _
  | cons a as ih =>
    rw [isort]
    exact (insertSorted_perm le a (isort le as)).trans (ih.cons a)

/-- Sortedness (as a chain of adjacent comparisons) for the sorting
model; only totality of the comparison is needed. -/
theorem insertSorted_chain' {α : Type} (le : α → α → Bool)
    (htot : ∀ a b, le a b = true ∨ le b a = true) (a : α) :
    ∀ l : List α, List.Chain' (fun x y => le x y = true) l →
    List.Chain' (fun x y => le x y = true) (insertSorted le a l) := by
  intro l
  induction l with
  | nil => intro _; exact List.chain'_singleton a
  | cons b bs ih =>
    intro hch
    have hch' := (List.chain'_cons'.mp hch).2
    by_cases h : le a b
    · rw [insertSorted, if_pos h]
      exact List.chain'_cons.mpr ⟨h, hch⟩
    · rw [insertSorted, if_neg h]
      have hba : le b a = true := by
        rcases htot a b with hc | hc
        · exact absurd hc (by simpa using h)
        · exact hc
      rw [List.chain'_cons']
      refine ⟨fun y hy => ?_, ih hch'⟩
      cases bs with
      | nil =>
        simp only [insertSorted, List.head?] at hy
        rcases Option.mem_some_iff.mp hy with rfl
        exact hba
      | cons c cs =>
        by_cases hac : le a c
        · rw [insertSorted, if_pos hac] at hy
          rcases Option.mem_some_iff.mp hy with rfl
          exact hba
        · rw [insertSorted, if_neg hac] at hy
          rcases Option.mem_some_iff.mp hy with rfl
          exact (List.chain'_cons.mp hch).1

theorem isort_chain' {α : Type} (le : α → α → Bool)
    (htot : ∀ a b, le a b = true ∨ le b a = true) :
    ∀ l : List α, List.Chain' (fun x y => le x y = true) (isort le l) := by
  intro l
  induction l with
  | nil => exact List.chain'_nil
  | cons a as ih => exact insertSorted_chain' le htot a _ ih

theorem cmpLin_swap {α : Type} [LinearOrder α] (a b : α) :
    cmpLin a b = (cmpLin b a).swap := by
  unfold cmpLin
  rcases lt_trichotomy a b with h | rfl | h
  · rw [if_pos h, if_neg (asymm h), if_pos h]
    rfl
  · rw [if_neg (lt_irrefl a)]
    rw [if_neg (lt_irrefl a)]
    rfl
  · rw [if_neg (asymm h), if_pos h, if_pos h]
    rfl

theorem cmpCell_swap (a b : Cell) : cmpCell a b = (cmpCell b a).swap := by
  cases a <;> cases b <;> simp only [cmpCell] <;>
    first
    | rfl
    | exact cmpLin_swap _ _

theorem cmpCells_swap : ∀ xs ys : List Cell,
    cmpCells xs ys = (cmpCells ys xs).swap := by
  intro xs
  induction xs with
  | nil => intro ys; cases ys <;> rfl
  | cons a as ih =>
    intro ys
    cases ys with
    | nil => rfl
    | cons b bs =>
      rw [cmpCells, cmpCells, cmpCell_swap a b]
      cases cmpCell b a with
      | lt => rfl
      | gt => rfl
      | eq => exact ih bs

theorem rowLeBy_total (ks : List String) (asc : Bool) (r₁ r₂ : Row) :
    rowLeBy ks asc r₁ r₂ = true ∨ rowLeBy ks asc r₂ r₁ = true := by
  unfold rowLeBy
  cases asc <;> simp only [Bool.false_eq_true, if_false, if_true, ite_true, ite_false] <;>
    rw [cmpCells_swap (keyCells ks r₂) (keyCells ks r₁)] <;>
    cases cmpCells (keyCells ks r₁) (keyCells ks r₂) <;> simp [Ordering.swap]

theorem intLeB_total (a b : Int) : intLeB a b = true ∨ intLeB b a = true := by
  rcases le_total a b with h | h
  · exact Or.inl (by simpa [intLeB] using h)
  · exact Or.inr (by simpa [intLeB] using h)

theorem pairLeB_total (a b : Int × Int) :
    pairLeB a b = true ∨ pairLeB b a = true := by
  rcases lt_trichotomy a.1 b.1 with h | h | h
  · exact Or.inl (by simp [pairLeB, h])
  · rcases le_total a.2 b.2 with g | g
    · exact Or.inl (by simp [pairLeB, h, g])
    · exact Or.inr (by simp [pairLeB, h.symm, g])
  · exact Or.inr (by simp [pairLeB, h])

/-- `pd.json_normalize` over records that all share one key list `K`
yields exactly `K` as columns and reproduces the records as rows. -/
theorem json_normalize_uniform {α : Type} (gen : α → Row) (K : List String)
    (hK : ∀ x, (gen x).map Prod.fst = K)
    (hfs : firstSeen K = K)
    (hrec : ∀ x, K.map (fun c => (c, lookupRow (gen x) c)) = gen x)
    (recs : List α) (hne : recs ≠ []) :
    (json_normalize (recs.map gen)).columns = K
    ∧ (json_normalize (recs.map gen)).rows = recs.map gen := by
  have hnemap : recs.map gen ≠ [] := by
    intro h
    exact hne (List.map_eq_nil_iff.mp h)
  have hflat : (recs.map gen).flatMap (fun r => r.map Prod.fst)
      = (recs.map gen).flatMap (fun _ => K) := by
    clear hnemap hne
    induction recs with
    | nil => rfl
    | cons x xs ih =>
      rw [List.map_cons, List.flatMap_cons, List.flatMap_cons, hK x, ih]
  have hcols : firstSeen ((recs.map gen).flatMap (fun r => r.map Prod.fst)) = K := by
    rw [hflat, firstSeen_flatMap_const K (recs.map gen) hnemap, hfs]
  refine ⟨hcols, ?_⟩
  show (recs.map gen).map (fun r =>
      (firstSeen ((recs.map gen).flatMap (fun rr => rr.map Prod.fst))).map
        (fun c => (c, lookupRow r c))) = recs.map gen
  calc (recs.map gen).map (fun r =>
      (firstSeen ((recs.map gen).flatMap (fun rr => rr.map Prod.fst))).map
        (fun c => (c, lookupRow r c)))
      = (recs.map gen).map (fun r => K.map (fun c => (c, lookupRow r c))) := by
        rw [hcols]
    _ = recs.map gen := by
        rw [List.map_map]
        conv_rhs => rw [show recs.map gen = recs.map gen from rfl]
        apply List.map_congr_left
        intro x _
        exact hrec x

theorem DataFrame_eq_mk (d : DataFrame) (c i : List String) (r : List Row)
    (hc : d.columns = c) (hi : d.indexCols = i) (hr : d.rows = r) :
    d = ⟨c, i, r⟩ := by
  cases d
  cases hc
  cases hi
  cases hr
  rfl

theorem C5Single_holds (recs : List SpRec) (hne : recs ≠ []) : C5Single recs := by
  obtain ⟨hcols, hrows⟩ := json_normalize_uniform spRow
    ["d", "c", "h", "l", "o", "v"] (fun x => rfl) rfl (fun x => rfl) recs hne
  have hjn : json_normalize (recs.map spRow)
      = ⟨["d", "c", "h", "l", "o", "v"], [], recs.map spRow⟩ :=
    DataFrame_eq_mk _ _ _ _ hcols rfl hrows
  have h2 : renameDF [("d", "date"), ("c", "close"), ("h", "high"), ("l", "low"),
        ("o", "open"), ("v", "volume")]
        (⟨["d", "c", "h", "l", "o", "v"], [], recs.map spRow⟩ : DataFrame)
      = ⟨["date", "close", "high", "low", "open", "volume"], [],
         recs.map (fun x =>
           [("date", Cell.s x.d), ("close", Cell.n x.c), ("high", Cell.n x.h),
            ("low", Cell.n x.l), ("open", Cell.n x.o), ("volume", Cell.n x.v)])⟩ := by
    refine DataFrame_eq_mk _ _ _ _ rfl rfl ?_
    show (recs.map spRow).map _ = _
    rw [List.map_map]
    apply List.map_congr_left
    intro x _
    rfl
  have h3 : parseDate (⟨["date", "close", "high", "low", "open", "volume"], [],
        recs.map (fun x =>
          [("date", Cell.s x.d), ("close", Cell.n x.c), ("high", Cell.n x.h),
           ("low", Cell.n x.l), ("open", Cell.n x.o), ("volume", Cell.n x.v)])⟩ :
          DataFrame) "date"
      = ⟨["date", "close", "high", "low", "open", "volume"], [],
         recs.map spOutRow⟩ := by
    unfold parseDate
    rw [if_pos (by simp)]
    refine DataFrame_eq_mk _ _ _ _ rfl rfl ?_
    show (recs.map _).map _ = _
    rw [List.map_map]
    apply List.map_congr_left
    intro x _
    rfl
  have h4 : get_instrument_stock_prices_df (recs.map spRow)
      = ⟨["close", "high", "low", "open", "volume"], ["date"],
         isort (rowLeBy ["date"] false) (recs.map spOutRow)⟩ := by
    unfold get_instrument_stock_prices_df
    rw [hjn, h2, h3]
    rw [show setIndex (⟨["date", "close", "high", "low", "open", "volume"], [],
        recs.map spOutRow⟩ : DataFrame) (.one "date") false
      = if "date" ∈ (⟨["date", "close", "high", "low", "open", "volume"], [],
          recs.map spOutRow⟩ : DataFrame).columns
        then setIndexApply (⟨["date", "close", "high", "low", "open", "volume"], [],
          recs.map spOutRow⟩ : DataFrame) ["date"] false
        else (⟨["date", "close", "high", "low", "open", "volume"], [],
          recs.map spOutRow⟩ : DataFrame) from rfl]
    rw [if_pos (by simp)]
    unfold setIndexApply
    exact DataFrame_eq_mk _ _ _ _ rfl rfl rfl
  refine ⟨by rw [h4], by rw [h4], ?_, ?_⟩
  · rw [h4]
    exact isort_perm _ _
  · rw [h4]
    exact isort_chain' _ (rowLeBy_total ["date"] false) _

/-- Shared reshaping prefix of the two all-instrument price endpoints. -/
theorem sp7_pipeline (recs : List SpRec7) (hne : recs ≠ []) :
    parseDate
      (renameDF [("d", "date"), ("i", "insId"), ("c", "close"), ("h", "high"),
        ("l", "low"), ("o", "open"), ("v", "volume")]
        (json_normalize (recs.map spRow7))) "date"
    = ⟨["date", "insId", "close", "high", "low", "open", "volume"], [],
       recs.map spOutRow7⟩ := by
  obtain ⟨hcols, hrows⟩ := json_normalize_uniform spRow7
    ["d", "i", "c", "h", "l", "o", "v"] (fun x => rfl) rfl (fun x => rfl) recs hne
  have hjn : json_normalize (recs.map spRow7)
      = ⟨["d", "i", "c", "h", "l", "o", "v"], [], recs.map spRow7⟩ :=
    DataFrame_eq_mk _ _ _ _ hcols rfl hrows
  rw [hjn]
  have h2 : renameDF [("d", "date"), ("i", "insId"), ("c", "close"), ("h", "high"),
        ("l", "low"), ("o", "open"), ("v", "volume")]
        (⟨["d", "i", "c", "h", "l", "o", "v"], [], recs.map spRow7⟩ : DataFrame)
      = ⟨["date", "insId", "close", "high", "low", "open", "volume"], [],
         recs.map (fun x =>
           [("date", Cell.s x.d), ("insId", Cell.n x.i), ("close", Cell.n x.c),
            ("high", Cell.n x.h), ("low", Cell.n x.l), ("open", Cell.n x.o),
            ("volume", Cell.n x.v)])⟩ := by
    refine DataFrame_eq_mk _ _ _ _ rfl rfl ?_
    show (recs.map spRow7).map _ = _
    rw [List.map_map]
    apply List.map_congr_left
    intro x _
    rfl
  rw [h2]
  unfold parseDate
  rw [if_pos (by simp)]
  refine DataFrame_eq_mk _ _ _ _ rfl rfl ?_
  show (recs.map _).map _ = _
  rw [List.map_map]
  apply List.map_congr_left
  intro x _
  rfl

theorem C5Last_holds (recs : List SpRec7) (hne : recs ≠ []) : C5Last recs := by
  have h4 : get_instruments_stock_prices_last_df (recs.map spRow7)
      = ⟨["insId", "close", "high", "low", "open", "volume"], ["date"],
         isort (rowLeBy ["date"] false) (recs.map spOutRow7)⟩ := by
    unfold get_instruments_stock_prices_last_df
    rw [sp7_pipeline recs hne]
    rw [show setIndex (⟨["date", "insId", "close", "high", "low", "open",
        "volume"], [], recs.map spOutRow7⟩ : DataFrame) (.one "date") false
      = if "date" ∈ (⟨["date", "insId", "close", "high", "low", "open",
          "volume"], [], recs.map spOutRow7⟩ : DataFrame).columns
        then setIndexApply (⟨["date", "insId", "close", "high", "low", "open",
          "volume"], [], recs.map spOutRow7⟩ : DataFrame) ["date"] false
        else (⟨["date", "insId", "close", "high", "low", "open", "volume"], [],
          recs.map spOutRow7⟩ : DataFrame) from rfl]
    rw [if_pos (by simp)]
    unfold setIndexApply
    exact DataFrame_eq_mk _ _ _ _ rfl rfl rfl
  refine ⟨by rw [h4], by rw [h4], ?_, ?_⟩
  · rw [h4]
    exact isort_perm _ _
  · rw [h4]
    exact isort_chain' _ (rowLeBy_total ["date"] false) _

theorem C5Date_holds (recs : List SpRec7) (hne : recs ≠ []) : C5Date recs := by
  have h4 : get_stock_prices_date_df (recs.map spRow7)
      = ⟨["date", "close", "high", "low", "open", "volume"], ["insId"],
         isort (rowLeBy ["insId"] true) (recs.map spOutRow7)⟩ := by
    unfold get_stock_prices_date_df
    rw [sp7_pipeline recs hne]
    rw [show setIndex (⟨["date", "insId", "close", "high", "low", "open",
        "volume"], [], recs.map spOutRow7⟩ : DataFrame) (.one "insId") true
      = if "insId" ∈ (⟨["date", "insId", "close", "high", "low", "open",
          "volume"], [], recs.map spOutRow7⟩ : DataFrame).columns
        then setIndexApply (⟨["date", "insId", "close", "high", "low", "open",
          "volume"], [], recs.map spOutRow7⟩ : DataFrame) ["insId"] true
        else (⟨["date", "insId", "close", "high", "low", "open", "volume"], [],
          recs.map spOutRow7⟩ : DataFrame) from rfl]
    rw [if_pos (by simp)]
    unfold setIndexApply
    exact DataFrame_eq_mk _ _ _ _ rfl rfl rfl
  refine ⟨by rw [h4], by rw [h4], ?_, ?_⟩
  · rw [h4]
    exact isort_perm _ _
  · rw [h4]
    exact isort_chain' _ (rowLeBy_total ["insId"] true) _

theorem C5ListOp_holds (arr : List (Int × List SpRec))
    (harr : arr.flatMap (fun g => g.2) ≠ []) : C5ListOp arr := by
  have hinner : (arr.map (fun g => (g.1, g.2.map spRow))).flatMap
        (fun g => g.2.map (fun r => r ++ [("instrument", Cell.n (g.1 : Rat))]))
      = (arr.flatMap (fun g => g.2.map (fun x => (g.1, x)))).map
          (fun ix => spRow ix.2 ++ [("instrument", Cell.n (ix.1 : Rat))]) := by
    rw [List.flatMap_map, List.map_flatMap]
    congr 1
    funext g
    rw [List.map_map, List.map_map]
    apply List.map_congr_left
    intro x _
    rfl
  have hL : arr.flatMap (fun g => g.2.map (fun x => (g.1, x))) ≠ [] := by
    intro h
    apply harr
    rw [List.flatMap_eq_nil_iff] at h ⊢
    intro g hg
    exact List.map_eq_nil_iff.mp (h g hg)
  obtain ⟨hcols, hrows⟩ := json_normalize_uniform
    (fun ix : Int × SpRec => spRow ix.2 ++ [("instrument", Cell.n (ix.1 : Rat))])
    ["d", "c", "h", "l", "o", "v", "instrument"] (fun x => rfl) rfl (fun x => rfl)
    (arr.flatMap (fun g => g.2.map (fun x => (g.1, x)))) hL
  have hjn : json_normalize_prices_meta (arr.map (fun g => (g.1, g.2.map spRow)))
      = ⟨["d", "c", "h", "l", "o", "v", "instrument"], [],
         (arr.flatMap (fun g => g.2.map (fun x => (g.1, x)))).map
           (fun ix => spRow ix.2 ++ [("instrument", Cell.n (ix.1 : Rat))])⟩ := by
    unfold json_normalize_prices_meta
    rw [hinner]
    exact DataFrame_eq_mk _ _ _ _ (hinner ▸ hcols) rfl (hinner ▸ hrows)
  have h2 : renameDF [("d", "date"), ("c", "close"), ("h", "high"), ("l", "low"),
        ("o", "open"), ("v", "volume"), ("instrument", "stock_id")]
        (⟨["d", "c", "h", "l", "o", "v", "instrument"], [],
          (arr.flatMap (fun g => g.2.map (fun x => (g.1, x)))).map
            (fun ix => spRow ix.2 ++ [("instrument", Cell.n (ix.1 : Rat))])⟩ :
          DataFrame)
      = ⟨["date", "close", "high", "low", "open", "volume", "stock_id"], [],
         (arr.flatMap (fun g => g.2.map (fun x => (g.1, x)))).map
           (fun ix => spListOutRow ix.1 ix.2)⟩ := by
    refine DataFrame_eq_mk _ _ _ _ rfl rfl ?_
    show ((arr.flatMap _).map _).map _ = _
    rw [List.map_map]
    apply List.map_congr_left
    intro x _
    rfl
  have h3 : fillna0 (⟨["date", "close", "high", "low", "open", "volume",
        "stock_id"], [],
        (arr.flatMap (fun g => g.2.map (fun x => (g.1, x)))).map
          (fun ix => spListOutRow ix.1 ix.2)⟩ : DataFrame)
      = ⟨["date", "close", "high", "low", "open", "volume", "stock_id"], [],
         (arr.flatMap (fun g => g.2.map (fun x => (g.1, x)))).map
           (fun ix => spListOutRow ix.1 ix.2)⟩ := by
    unfold fillna0
    refine DataFrame_eq_mk _ _ _ _ rfl rfl ?_
    show ((arr.flatMap _).map _).map _ = _
    rw [List.map_map]
    apply List.map_congr_left
    intro x _
    rfl
  have hfin : get_instrument_stock_prices_list_df
        (arr.map (fun g => (g.1, g.2.map spRow)))
      = ⟨["date", "close", "high", "low", "open", "volume", "stock_id"], [],
         (arr.flatMap (fun g => g.2.map (fun x => (g.1, x)))).map
           (fun ix => spListOutRow ix.1 ix.2)⟩ := by
    unfold get_instrument_stock_prices_list_df
    rw [hjn, h2, h3]
  have hrows2 : (arr.flatMap (fun g => g.2.map (fun x => (g.1, x)))).map
        (fun ix => spListOutRow ix.1 ix.2)
      = arr.flatMap (fun g => g.2.map (spListOutRow g.1)) := by
    rw [List.map_flatMap]
    congr 1
    funext g
    rw [List.map_map]
    apply List.map_congr_left
    intro x _
    rfl
  exact ⟨by rw [hfin], by rw [hfin], by rw [hfin, hrows2]⟩

/-- C5 (counterexample): the claim asserts that *every* stock-price
operation indexes by `date` sorted descending with the date coerced.  On
the code, `get_stock_prices_date` sets the index to `insId`, and
`get_instrument_stock_prices_list` applies no index and no date coercion
at all (the date stays a raw string). -/
theorem C5_counterexample_not_all_indexed_by_date :
    (get_stock_prices_date_df [spRow7 ⟨"2020-09-25", 1, 1, 1, 1, 1, 1⟩]).indexCols
      = ["insId"]
    ∧ (get_stock_prices_date_df [spRow7 ⟨"2020-09-25", 1, 1, 1, 1, 1, 1⟩]).indexCols
      ≠ ["date"]
    ∧ (get_instrument_stock_prices_list_df
        [(2, [spRow ⟨"2022-01-03", 1, 1, 1, 1, 1⟩])]).indexCols = []
    ∧ (get_instrument_stock_prices_list_df
        [(2, [spRow ⟨"2022-01-03", 1, 1, 1, 1, 1⟩])]).rows
      = [[("date", Cell.s "2022-01-03"), ("close", Cell.n 1),
          ("high", Cell.n 1), ("low", Cell.n 1), ("open", Cell.n 1),
          ("volume", Cell.n 1), ("stock_id", Cell.n ((2 : Int) : Rat))]] :=
  ⟨by decide, by decide, by decide, by decide⟩

/-- C5 (amended): the `{d,c,h,l,o,v}` renames hold for all four
stock-price operations, but the indexing differs: the single-instrument
and last-prices endpoints coerce the date and index by `date` descending;
the multi-instrument list endpoint returns its rows un-indexed, in
payload order, with the date left as a raw string; the by-date endpoint
coerces the date but indexes by `insId` ascending. -/
theorem C5_amended_stock_price_shapes (recs1 : List SpRec)
    (arr : List (Int × List SpRec)) (recs7 recs7b : List SpRec7)
    (h1 : recs1 ≠ []) (harr : arr.flatMap (fun g => g.2) ≠ [])
    (h7 : recs7 ≠ []) (h7b : recs7b ≠ []) :
    C5Single recs1 ∧ C5ListOp arr ∧ C5Last recs7 ∧ C5Date recs7b :=
  ⟨C5Single_holds recs1 h1, C5ListOp_holds arr harr,
   C5Last_holds recs7 h7, C5Date_holds recs7b h7b⟩

/-- Witness for C5 at singleton payloads. -/
theorem C5_amended_stock_price_shapes_witness :
    ((([⟨"2022-01-03", 1, 2, 3, 4, 5⟩] : List SpRec) ≠ [])
      ∧ ([((2 : Int), [(⟨"2022-01-03", 1, 2, 3, 4, 5⟩ : SpRec)])].flatMap
          (fun g => g.2) ≠ [])
      ∧ (([⟨"2020-09-25", 7, 1, 2, 3, 4, 5⟩] : List SpRec7) ≠ [])
      ∧ (([⟨"2020-09-26", 8, 1, 2, 3, 4, 5⟩] : List SpRec7) ≠ []))
    ∧ (C5Single [⟨"2022-01-03", 1, 2, 3, 4, 5⟩]
      ∧ C5ListOp [((2 : Int), [(⟨"2022-01-03", 1, 2, 3, 4, 5⟩ : SpRec)])]
      ∧ C5Last [⟨"2020-09-25", 7, 1, 2, 3, 4, 5⟩]
      ∧ C5Date [⟨"2020-09-26", 8, 1, 2, 3, 4, 5⟩]) :=
  ⟨⟨by decide, by decide, by decide, by decide⟩,
   C5_amended_stock_price_shapes [⟨"2022-01-03", 1, 2, 3, 4, 5⟩]
     [((2 : Int), [(⟨"2022-01-03", 1, 2, 3, 4, 5⟩ : SpRec)])]
     [⟨"2020-09-25", 7, 1, 2, 3, 4, 5⟩] [⟨"2020-09-26", 8, 1, 2, 3, 4, 5⟩]
     (by decide) (by decide) (by decide) (by decide)⟩

/-- `_set_index` only reorders rows (or leaves them alone); it never
creates, drops or rewrites a cell. -/
theorem setIndex_rows_perm (df : DataFrame) (spec : IndexSpec) (asc : Bool) :
    (setIndex df spec asc).rows.Perm df.rows := by
  cases spec with
  | one k =>
    show (if k ∈ df.columns then setIndexApply df [k] asc else df).rows.Perm df.rows
    split_ifs
    · exact isort_perm _ _
    · exact List.Perm.refl _
  | many ks =>
    show (if (ks.all fun c => decide (c ∈ df.columns)) = true
          then setIndexApply df ks asc else df).rows.Perm df.rows
    split_ifs
    · exact isort_perm _ _
    · exact List.Perm.refl _

theorem C7Reports_holds (rm : List RmRec) (hrm : rm ≠ []) : C7Reports rm := by
  obtain ⟨hcols, hrows⟩ := json_normalize_uniform rmRow
    ["reportPropery", "nameEn"] (fun x => rfl) rfl (fun x => rfl) rm hrm
  have hjn : json_normalize (rm.map rmRow)
      = ⟨["reportPropery", "nameEn"], [], rm.map rmRow⟩ :=
    DataFrame_eq_mk _ _ _ _ hcols rfl hrows
  have h2 : renameDF [("reportPropery", "reportProperty")]
        (⟨["reportPropery", "nameEn"], [], rm.map rmRow⟩ : DataFrame)
      = ⟨["reportProperty", "nameEn"], [],
         rm.map (fun r => [("reportProperty", Cell.s r.reportPropery),
                           ("nameEn", Cell.s r.nameEn)])⟩ := by
    refine DataFrame_eq_mk _ _ _ _ rfl rfl ?_
    show (rm.map rmRow).map _ = _
    rw [List.map_map]
    apply List.map_congr_left
    intro x _
    rfl
  have h3 : stripColUnderscores
        (⟨["reportProperty", "nameEn"], [],
          rm.map (fun r => [("reportProperty", Cell.s r.reportPropery),
                            ("nameEn", Cell.s r.nameEn)])⟩ : DataFrame)
        "reportProperty"
      = ⟨["reportProperty", "nameEn"], [],
         rm.map (fun r =>
           [("reportProperty", Cell.s (stripUnderscores r.reportPropery)),
            ("nameEn", Cell.s r.nameEn)])⟩ := by
    unfold stripColUnderscores
    refine DataFrame_eq_mk _ _ _ _ rfl rfl ?_
    show (rm.map _).map _ = _
    rw [List.map_map]
    apply List.map_congr_left
    intro x _
    rfl
  have h4 : get_reports_metadata_df (rm.map rmRow)
      = ⟨["nameEn"], ["reportProperty"],
         isort (rowLeBy ["reportProperty"] true)
           (rm.map (fun r =>
             [("reportProperty", Cell.s (stripUnderscores r.reportPropery)),
              ("nameEn", Cell.s r.nameEn)]))⟩ := by
    unfold get_reports_metadata_df
    rw [hjn, h2, h3]
    rw [show setIndex (⟨["reportProperty", "nameEn"], [],
        rm.map (fun r =>
          [("reportProperty", Cell.s (stripUnderscores r.reportPropery)),
           ("nameEn", Cell.s r.nameEn)])⟩ : DataFrame) (.one "reportProperty") true
      = if "reportProperty" ∈ (⟨["reportProperty", "nameEn"], [],
          rm.map (fun r =>
            [("reportProperty", Cell.s (stripUnderscores r.reportPropery)),
             ("nameEn", Cell.s r.nameEn)])⟩ : DataFrame).columns
        then setIndexApply (⟨["reportProperty", "nameEn"], [],
          rm.map (fun r =>
            [("reportProperty", Cell.s (stripUnderscores r.reportPropery)),
             ("nameEn", Cell.s r.nameEn)])⟩ : DataFrame) ["reportProperty"] true
        else (⟨["reportProperty", "nameEn"], [],
          rm.map (fun r =>
            [("reportProperty", Cell.s (stripUnderscores r.reportPropery)),
             ("nameEn", Cell.s r.nameEn)])⟩ : DataFrame) from rfl]
    rw [if_pos (by simp)]
    unfold setIndexApply
    exact DataFrame_eq_mk _ _ _ _ rfl rfl rfl
  exact ⟨by rw [h4], by rw [h4], by rw [h4]; exact isort_perm _ _⟩

/-- C7 (counterexample): the claim says the textual cleanup is applied by
both metadata operations.  `get_kpi_metadata` applies none: a payload row
carrying `reportPropery: "net_income"` keeps the misspelt column and the
underscore untouched, and the index is `kpiId`. -/
theorem C7_counterexample_kpi_metadata_uncleaned :
    (get_kpi_metadata_df [[("kpiId", Cell.n 1),
        ("reportPropery", Cell.s "net_income")]]).columns = ["reportPropery"]
    ∧ (get_kpi_metadata_df [[("kpiId", Cell.n 1),
        ("reportPropery", Cell.s "net_income")]]).indexCols = ["kpiId"]
    ∧ (get_kpi_metadata_df [[("kpiId", Cell.n 1),
        ("reportPropery", Cell.s "net_income")]]).rows
      = [[("kpiId", Cell.n 1), ("reportPropery", Cell.s "net_income")]]
    ∧ stripUnderscores "net_income" = "netincome" :=
  ⟨by decide, by decide, by decide, by decide⟩

/-- C7 (amended): only `get_reports_metadata` applies the cleanup — the
`reportPropery` column is renamed to `reportProperty`, underscores are
stripped from its values (`net_income` becomes `netincome`) and it
becomes the index; `get_kpi_metadata` reshapes and indexes by `kpiId`
without touching any cell. -/
theorem C7_amended_metadata_cleanup (rm : List RmRec) (recs : List Row)
    (hrm : rm ≠ []) :
    C7Reports rm
    ∧ (get_kpi_metadata_df recs).rows.Perm (json_normalize recs).rows :=
  ⟨C7Reports_holds rm hrm, setIndex_rows_perm (json_normalize recs) _ _⟩

/-- Witness for C7 at the claim's own example record. -/
theorem C7_amended_metadata_cleanup_witness :
    (([⟨"net_income", "Net Income"⟩] : List RmRec) ≠ [])
    ∧ C7Reports [⟨"net_income", "Net Income"⟩]
    ∧ (get_kpi_metadata_df [[("kpiId", Cell.n 1)]]).rows.Perm
        (json_normalize [[("kpiId", Cell.n 1)]]).rows :=
  ⟨by decide,
   (C7_amended_metadata_cleanup [⟨"net_income", "Net Income"⟩]
     [[("kpiId", Cell.n 1)]] (by decide)).1,
   (C7_amended_metadata_cleanup [⟨"net_income", "Net Income"⟩]
     [[("kpiId", Cell.n 1)]] (by decide)).2⟩

/-- The `_set_index(df, ["year", "period"], ascending=False)` call after
`pivot_table` never fires: the pivoted columns are integer KPI ids, and a
string index name is never `==` to an integer, so the membership test
fails and the early `return` leaves the frame untouched. -/
theorem setIndexPivot_noop (df : PivotDF) :
    setIndexPivot df ["year", "period"] = df := by
  unfold setIndexPivot
  rw [if_neg]
  intro h
  rw [List.all_eq_true] at h
  have hy := h "year" (by simp)
  rw [List.any_eq_true] at hy
  obtain ⟨c, _, hc⟩ := hy
  exact absurd hc (by simp [pyStrIntEq])

/-- C6 (counterexample): the claim says the pivot is indexed by
`(year, period)` descending.  With two years the result index is
ascending — `pivot_table`'s default sort — because the descending
re-index is a no-op. -/
theorem C6_counterexample_pivot_sorted_ascending :
    (get_kpi_summary_df [⟨10, [⟨2019, 1, 1⟩, ⟨2020, 1, 2⟩]⟩]).idx
      = [(2019, 1), (2020, 1)]
    ∧ (get_kpi_summary_df [⟨10, [⟨2019, 1, 1⟩, ⟨2020, 1, 2⟩]⟩]).idx
      ≠ [(2020, 1), (2019, 1)] := by
  constructor
  · simp [get_kpi_summary_df, setIndexPivot, pivotKpiSummary, kpiSummaryEntries,
      firstSeen, isort, insertSorted, intLeB, pairLeB, pyStrIntEq]
  · simp [get_kpi_summary_df, setIndexPivot, pivotKpiSummary, kpiSummaryEntries,
      firstSeen, isort, insertSorted, intLeB, pairLeB, pyStrIntEq]

/-- C6 (amended): `get_kpi_summary` returns exactly the pivot_table
result: one column per distinct KPI id (sorted, no duplicates), rows
labelled by the distinct `(year, period)` pairs sorted *ascending* (the
`ascending=False` re-index in the source is a no-op because the declared
names are matched against integer column labels); on the claim's example
payload the single row `(2020, 1)` holds `10 → 5` and `11 → 7`. -/
theorem C6_amended_kpi_pivot :
    (∀ groups : List KpiGroup,
      get_kpi_summary_df groups = pivotKpiSummary (kpiSummaryEntries groups))
    ∧ (∀ groups : List KpiGroup,
        List.Chain' (fun a b => pairLeB a b = true) (get_kpi_summary_df groups).idx
        ∧ (get_kpi_summary_df groups).idx.Nodup
        ∧ List.Chain' (fun a b => intLeB a b = true) (get_kpi_summary_df groups).cols
        ∧ (get_kpi_summary_df groups).cols.Nodup
        ∧ (∀ c, c ∈ (get_kpi_summary_df groups).cols
            ↔ c ∈ (kpiSummaryEntries groups).map (fun e => e.kpiId))
        ∧ (∀ k, k ∈ (get_kpi_summary_df groups).idx
            ↔ k ∈ (kpiSummaryEntries groups).map (fun e => (e.year, e.period))))
    ∧ get_kpi_summary_df [⟨10, [⟨2020, 1, 5⟩]⟩, ⟨11, [⟨2020, 1, 7⟩]⟩]
      = ⟨[10, 11], [(2020, 1)], [[some 5, some 7]]⟩ := by
  refine ⟨fun groups => setIndexPivot_noop _, fun groups => ?_, ?_⟩
  · rw [get_kpi_summary_df, setIndexPivot_noop]
    refine ⟨isort_chain' _ pairLeB_total _,
      ((isort_perm _ _).nodup_iff).mpr (nodup_firstSeen _),
      isort_chain' _ intLeB_total _,
      ((isort_perm _ _).nodup_iff).mpr (nodup_firstSeen _), ?_, ?_⟩
    · intro c
      exact ((isort_perm _ _).mem_iff).trans (mem_firstSeen c _)
    · intro k
      exact ((isort_perm _ _).mem_iff).trans (mem_firstSeen k _)
  · simp [get_kpi_summary_df, setIndexPivot, pivotKpiSummary, kpiSummaryEntries,
      firstSeen, isort, insertSorted, intLeB, pairLeB, pyStrIntEq]
